import Mathlib

/-!
# Formal model of the ChatGPT-conversation extraction pipeline

This file is a shallow embedding, in Lean 4, of the core of the
`chatgpt-to-pdf-math-support` repository: the notation-repair string
transforms (`src/shared/messages.ts`, `src/content/dom/parser.ts`), the
KaTeX renderer adapter (`renderLatex`), the DOM selector-resolution layer
(`src/content/dom/selectors.ts`), the message/content-block parser
(`src/content/dom/parser.ts`), and the export handler's message-count cap
(`src/service-worker/handlers`).

JavaScript strings are modelled as Lean `String` (lists of characters;
the sources only rely on code-unit = character agreement for ASCII data,
which all concrete inputs here satisfy).  Each JavaScript
`String.replace(regexp, replacement)` call with a `g` flag is modelled by
a left-to-right, leftmost-match, non-overlapping rewrite (`applyRule`)
driven by a `Matcher` that transcribes the concrete regular expression of
the source, including greediness and the limited backtracking the
concrete patterns can perform.  The DOM is modelled as an immutable tree
(`DomNode`); element identity is modelled by tree paths where it matters
(the deduplicating selector strategy).
-/

/-! ## Basic string helpers -/

/-- JavaScript whitespace class `\s` restricted to the code points the
repository's data can contain (space, tab, newline, carriage return,
form feed, vertical tab). -/
def isWs (c : Char) : Bool :=
  c = ' ' || c = '\t' || c = '\n' || c = '\r' || c = '\x0b' || c = '\x0c'

/-- `String.prototype.trim`: strip leading and trailing whitespace. -/
def jsTrim (s : String) : String :=
  String.mk (((s.data.dropWhile isWs).reverse.dropWhile isWs).reverse)

/-- Boolean prefix test on character lists. -/
def listPrefixOf : List Char → List Char → Bool
  | [], _ => true
  | _ :: _, [] => false
  | a :: as, b :: bs => a = b && listPrefixOf as bs

/-- Boolean infix test on character lists. -/
def listInfixOf (pat : List Char) : List Char → Bool
  | [] => pat.isEmpty
  | c :: rest => listPrefixOf pat (c :: rest) || listInfixOf pat rest

/-- Substring test (JavaScript `String.prototype.includes`). -/
def strContains (s pat : String) : Bool :=
  listInfixOf pat.data s.data

/-- Number of occurrences of a character in a string
(JavaScript `(s.match(/c/g) || []).length` for a single-character class). -/
def countChar (c : Char) (s : String) : Nat :=
  s.data.count c

/-- JavaScript `s.substring(0, n)`: the first `n` characters. -/
def strTake (s : String) (n : Nat) : String :=
  String.mk (s.data.take n)

/-! ## Generic rewrite machinery for the regex-based repair rules

A `Matcher` inspects the current position of the text (given as the list
of remaining characters).  If the modelled regular expression matches a
(necessarily nonempty) prefix there, it returns the replacement text and
the characters following the match; otherwise `none`.  `applyRule` scans
the text left to right, replacing every match and resuming after each
replacement, exactly like a global-flag `String.replace`. -/

abbrev Matcher := List Char → Option (String × List Char)

/-- One global-replace pass, fuelled by the length of the text.  Every
matcher used in this file consumes at least one character per match, so
`length` fuel is always sufficient. -/
def applyRuleFuel (m : Matcher) : Nat → List Char → List Char
  | 0, l => l
  | _ + 1, [] => []
  | fuel + 1, c :: rest =>
    match m (c :: rest) with
    | some (rep, rem) => rep.data ++ applyRuleFuel m fuel rem
    | none => c :: applyRuleFuel m fuel rest

/-- Global-flag `String.replace`: rewrite every leftmost match. -/
def applyRule (m : Matcher) (s : String) : String :=
  String.mk (applyRuleFuel m s.data.length s.data)

/-- Match a literal string at the current position. -/
def matchLit (pat : String) (l : List Char) : Option (List Char) :=
  if listPrefixOf pat.data l then some (l.drop pat.data.length) else none

/-- Literal pattern, literal replacement. -/
def litRule (pat rep : String) : Matcher := fun l =>
  (matchLit pat l).map (fun r => (rep, r))

/-- Literal pattern followed by `\s*` (greedy), literal replacement:
models `/pat\s*/g → rep`. -/
def litWsRule (pat rep : String) : Matcher := fun l =>
  (matchLit pat l).map (fun r => (rep, r.dropWhile isWs))

/-- First alternative of a word list that matches at the current
position (the word lists used in the sources are prefix-free, so the
first-match policy agrees with regex alternation). -/
def matchFirstWord (words : List String) (l : List Char) : Option (String × List Char) :=
  match words with
  | [] => none
  | w :: ws =>
    match matchLit w l with
    | some r => some (w, r)
    | none => matchFirstWord ws l

/-- Models `/\|(w1|w2|...)/g → '\\$1'`: a vertical bar used in place of a
backslash before a known command name. -/
def pipeCmdRule (words : List String) : Matcher := fun l =>
  match l with
  | '|' :: rest => (matchFirstWord words rest).map (fun p => ("\\" ++ p.1, p.2))
  | _ => none

/-- Models `/\s*\\rangle/g → '}'` (greedy leading whitespace; leftmost
match semantics put the match start at the beginning of a whitespace run
whenever the run is followed by the literal). -/
def rangleRule : Matcher := fun l =>
  (matchLit ("\\rangle") (l.dropWhile isWs)).map (fun r => ("\x7d", r))

/-- Models `/<([^>]+)>/g → '{$1}'`. -/
def angleRule : Matcher := fun l =>
  match l with
  | '<' :: rest =>
    let body := rest.takeWhile (fun c => c != '>')
    if body.isEmpty then none
    else
      match rest.drop body.length with
      | '>' :: r => some ("\x7b" ++ String.mk body ++ "\x7d", r)
      | _ => none
  | _ => none

/-- `\s*` between the remaining letters of a spaced-out command:
models the tail of `/\\f\s*r\s*a\s*c/g` and friends. -/
def spacedTail (cs : List Char) (l : List Char) : Option (List Char) :=
  match cs with
  | [] => some l
  | c :: cs' =>
    match l.dropWhile isWs with
    | c' :: r => if c' = c then spacedTail cs' r else none
    | [] => none

/-- `\s+` (at least one whitespace) between the remaining letters:
models the tail of `/\\f\s+r\s+a\s+c/g`. -/
def spacedTailPlus (cs : List Char) (l : List Char) : Option (List Char) :=
  match cs with
  | [] => some l
  | c :: cs' =>
    match l with
    | w :: r =>
      if isWs w then
        match r.dropWhile isWs with
        | c' :: r2 => if c' = c then spacedTailPlus cs' r2 else none
        | [] => none
      else none
    | [] => none

/-- Models `/head(\s*x)(\s*y).../g → rep` for a spaced-out command. -/
def spacedRule (head : String) (tail : List Char) (rep : String) : Matcher := fun l =>
  (matchLit head l).bind (fun r => (spacedTail tail r).map (fun r2 => (rep, r2)))

/-- As `spacedRule` but requiring at least one whitespace between letters. -/
def spacedPlusRule (head : String) (tail : List Char) (rep : String) : Matcher := fun l =>
  (matchLit head l).bind (fun r => (spacedTailPlus tail r).map (fun r2 => (rep, r2)))

/-- Models `pre(w1|w2|...)post → rpre$1rpost` where the capture is a word
from a prefix-free list (the `operatorname` rules). -/
def wordWrapRule (pre : String) (words : List String) (post : String)
    (rpre rpost : String) : Matcher := fun l =>
  (matchLit pre l).bind fun r =>
  (matchFirstWord words r).bind fun p =>
  (matchLit post p.2).map fun r3 => (rpre ++ p.1 ++ rpost, r3)

/-- Models `pre(\d) → rep$1` (single captured digit). -/
def digitCapRule (pre : String) (rep : String) : Matcher := fun l =>
  (matchLit pre l).bind fun r =>
  match r with
  | d :: r2 => if d.isDigit then some (rep ++ String.singleton d, r2) else none
  | [] => none

/-- Models `pre([a-zA-Z])post → $1` (single captured letter), e.g.
`/\\mathrm\{([a-zA-Z])\}/g → '$1'`. -/
def alphaCapRule (pre post : String) : Matcher := fun l =>
  (matchLit pre l).bind fun r =>
  match r with
  | a :: r2 =>
    if a.isAlpha then
      (matchLit post r2).map (fun r3 => (String.singleton a, r3))
    else none
  | [] => none

/-- Models `pre([^stop]+)post → rpre$1rpost` with a greedy one-character
negated class (the class excludes the first character of `post`, so the
greedy run is the unique possible capture). -/
def capOneRule (pre post : String) (stop : Char) (rpre rpost : String) : Matcher := fun l =>
  (matchLit pre l).bind fun r =>
  let a := r.takeWhile (fun c => c != stop)
  if a.isEmpty then none
  else
    (matchLit post (r.drop a.length)).map fun r2 =>
      (rpre ++ String.mk a ++ rpost, r2)

/-- Models `pre([^stop]+)mid([^stop]+)post → rpre$1rmid$2rpost`
(two greedy captures, e.g. `/\\frac\(([^)]+)\)\(([^)]+)\)/g`). -/
def capTwoRule (pre mid post : String) (stop : Char)
    (rpre rmid rpost : String) : Matcher := fun l =>
  (matchLit pre l).bind fun r =>
  let a := r.takeWhile (fun c => c != stop)
  if a.isEmpty then none
  else
    (matchLit mid (r.drop a.length)).bind fun r2 =>
    let b := r2.takeWhile (fun c => c != stop)
    if b.isEmpty then none
    else
      (matchLit post (r2.drop b.length)).map fun r3 =>
        (rpre ++ String.mk a ++ rmid ++ String.mk b ++ rpost, r3)

/-- Models `/\{\^(\d+)\}/g → '^{$1}'`. -/
def braceCaretRule : Matcher := fun l =>
  (matchLit ("\x7b^") l).bind fun r =>
  let d := r.takeWhile Char.isDigit
  if d.isEmpty then none
  else
    match r.drop d.length with
    | '\x7d' :: r2 => some ("^\x7b" ++ String.mk d ++ "\x7d", r2)
    | _ => none

/-- Models `/\\\\\s*(?![\\[])/g → ' '` from `cleanLatexContent`: two
backslashes, then greedy whitespace subject to a negative lookahead.
Backtracking gives up at most one whitespace character, because any
shorter run is followed by whitespace, which satisfies the lookahead. -/
def dblBackslashRule : Matcher := fun l =>
  (matchLit ("\\\\") l).bind fun r =>
  let m := (r.takeWhile isWs).length
  let okAt : List Char → Bool := fun rem =>
    match rem with
    | [] => true
    | c :: _ => !(c = '\\' || c = '[')
  if okAt (r.drop m) then some (" ", r.drop m)
  else if m > 0 then some (" ", r.drop (m - 1))
  else none

/-- Models `/\\text\s*\{/g → '\\text{'`. -/
def textBraceRule : Matcher := fun l =>
  (matchLit ("\\text") l).bind fun r =>
  match r.dropWhile isWs with
  | '\x7b' :: r2 => some ("\\text\x7b", r2)
  | _ => none

/-- Models `/\\neq\s+0/g → '\\neq 0'`. -/
def neqZeroRule : Matcher := fun l =>
  (matchLit ("\\neq") l).bind fun r =>
  match r with
  | w :: r1 =>
    if isWs w then
      match r1.dropWhile isWs with
      | '0' :: r2 => some ("\\neq 0", r2)
      | _ => none
    else none
  | [] => none

/-- Models `/\s*\)\\text/g → '}'`. -/
def closeParenTextRule : Matcher := fun l =>
  (matchLit (")\\text") (l.dropWhile isWs)).map (fun r => ("\x7d", r))

/-- Models the non-global `replace(/\.\s*$/, '')` of `cleanLatexContent`:
remove the first period that is followed only by whitespace up to the end
of the string (together with that whitespace). -/
def stripTrailingPeriod : List Char → List Char
  | [] => []
  | '.' :: rest => if rest.all isWs then [] else '.' :: stripTrailingPeriod rest
  | c :: rest => c :: stripTrailingPeriod rest

/-! ## The notation repair passes -/

/-- `src/shared/messages.ts:526` — `fixCorruptedLatexPatterns`, the
pre-extraction full-text repair pass.  The rules appear in source order. -/
def fixCorruptedLatexPatterns (text : String) : String :=
  -- Fix escaped dollar signs: \$ -> $
  let fixed := applyRule (litRule ("\\$") ("$")) text
  -- Fix vertical bars used as backslashes: |frac -> \frac, |left -> \left
  let fixed := applyRule (pipeCmdRule
    ["frac", "left", "right", "sqrt", "sin", "cos", "tan", "text", "Rightarrow"]) fixed
  -- Fix angle brackets used as curly braces: \langle x\rangle -> {x}
  let fixed := applyRule (litWsRule ("\\langle") ("\x7b")) fixed
  let fixed := applyRule rangleRule fixed
  let fixed := applyRule angleRule fixed
  -- Fix \backslash -> \
  let fixed := applyRule (litWsRule ("\\backslash") ("\\")) fixed
  -- Fix spaced out commands: \f r a c -> \frac
  let fixed := applyRule (spacedRule ("\\f") ['r', 'a', 'c'] ("\\frac")) fixed
  let fixed := applyRule (spacedRule ("\\s") ['q', 'r', 't'] ("\\sqrt")) fixed
  let fixed := applyRule (spacedRule ("\\t") ['e', 'x', 't'] ("\\text")) fixed
  fixed

/-- The word list captured by the `operatorname` rules. -/
def operatornameWords : List String :=
  ["frac", "sin", "cos", "tan", "log", "ln", "exp", "sqrt"]

/-- `src/shared/messages.ts:625`–`632` — the final brace-balancing step of
`cleanLatexContent`: count open and close braces and append the deficit of
closing braces (never the reverse). -/
def balanceBraces (s : String) : String :=
  let openBraces := countChar '\x7b' s
  let closeBraces := countChar '\x7d' s
  if openBraces > closeBraces then
    s ++ String.mk (List.replicate (openBraces - closeBraces) '\x7d')
  else s

/-- `src/shared/messages.ts:554` — `cleanLatexContent`, the per-formula
repair pass applied just before rendering.  The rules appear in source
order; the final step is `balanceBraces`. -/
def cleanLatexContent (latex : String) : String :=
  -- Remove trailing periods that are not part of the formula
  let cleaned := String.mk (stripTrailingPeriod latex.data)
  -- Fix vertical bars used as backslashes
  let cleaned := applyRule (pipeCmdRule
    ["frac", "left", "right", "sqrt", "sin", "cos", "tan", "text",
     "Rightarrow", "neq", "leq", "geq", "pi"]) cleaned
  -- Fix angle brackets used as curly braces
  let cleaned := applyRule (litWsRule ("\\langle") ("\x7b")) cleaned
  let cleaned := applyRule rangleRule cleaned
  -- Fix \backslash -> \
  let cleaned := applyRule (litWsRule ("\\backslash") ("\\")) cleaned
  -- Fix \{operatorname{frac} -> \frac
  let cleaned := applyRule
    (wordWrapRule ("\\\x7boperatorname\x7b") operatornameWords ("\x7d\x7d") ("\\") ("")) cleaned
  let cleaned := applyRule
    (wordWrapRule ("\x7b\\operatorname\x7b") operatornameWords ("\x7d") ("\\") ("\x7b")) cleaned
  let cleaned := applyRule
    (wordWrapRule ("\\operatorname\x7b") operatornameWords ("\x7d") ("\\") ("")) cleaned
  -- Fix \left\{frac -> \left(\frac
  let cleaned := applyRule (litRule ("\\left\\\x7bfrac") ("\\left(\\frac")) cleaned
  let cleaned := applyRule (litRule ("\\left\x7bfrac") ("\\left(\\frac")) cleaned
  let cleaned := applyRule (litRule ("\\left\x7bf(") ("\\left(\\frac\x7b")) cleaned
  -- Fix broken right patterns
  let cleaned := applyRule (litRule ("\\right\x7d") ("\\right)")) cleaned
  let cleaned := applyRule (litRule ("\x7dright)") ("\\right)")) cleaned
  let cleaned := applyRule (digitCapRule ("right\\^") ("\\right)^")) cleaned
  let cleaned := applyRule (digitCapRule ("\x7dright^") ("\\right)^")) cleaned
  let cleaned := applyRule (litRule ("(right)") ("\\right)")) cleaned
  -- Fix \frac(a)(b) -> \frac{a}{b}
  let cleaned := applyRule
    (capTwoRule ("\\frac(") (")(") (")") ')' ("\\frac\x7b") ("\x7d\x7b") ("\x7d")) cleaned
  -- Fix \{frac{...}{...}\} -> \frac{...}{...}
  let cleaned := applyRule
    (capTwoRule ("\\\x7bfrac\x7b") ("\x7d\x7b") ("\x7d\x7d") '\x7d'
      ("\\frac\x7b") ("\x7d\x7b") ("\x7d")) cleaned
  let cleaned := applyRule
    (capTwoRule ("\x7bfrac\x7b") ("\x7d\x7b") ("\x7d") '\x7d'
      ("\\frac\x7b") ("\x7d\x7b") ("\x7d")) cleaned
  -- Fix ^ as \wedge or \^
  let cleaned := applyRule (litRule ("\\wedge") ("^")) cleaned
  let cleaned := applyRule (litRule ("\\^") ("^")) cleaned
  let cleaned := applyRule braceCaretRule cleaned
  -- Fix \mathrm{x} -> x
  let cleaned := applyRule (alphaCapRule ("\\mathrm\x7b") ("\x7d")) cleaned
  -- Fix \underline{x} -> x
  let cleaned := applyRule (capOneRule ("\\underline\x7b") ("\x7d") '\x7d' ("") ("")) cleaned
  let cleaned := applyRule (capOneRule ("\\boldsymbol\x7b") ("\x7d") '\x7d' ("") ("")) cleaned
  -- Fix spacing commands
  let cleaned := applyRule (litWsRule ("\\quad") (" ")) cleaned
  let cleaned := applyRule (litWsRule ("\\qquad") ("  ")) cleaned
  -- Fix double backslashes (not line breaks)
  let cleaned := applyRule dblBackslashRule cleaned
  -- Fix stray text commands
  let cleaned := applyRule textBraceRule cleaned
  -- Fix spaced-out commands
  let cleaned := applyRule (spacedPlusRule ("\\f") ['r', 'a', 'c'] ("\\frac")) cleaned
  let cleaned := applyRule (spacedPlusRule ("\\s") ['q', 'r', 't'] ("\\sqrt")) cleaned
  -- Fix common typos in commands
  let cleaned := applyRule neqZeroRule cleaned
  let cleaned := applyRule (litWsRule ("\\text(") ("\\text\x7b")) cleaned
  let cleaned := applyRule closeParenTextRule cleaned
  -- Fix unbalanced braces - ensure basic balance
  balanceBraces cleaned

/-- `src/content/dom/parser.ts:459` — `cleanExtractedLatex`, the repair
pass applied to LaTeX source recovered from rendered math annotations.
The rules appear in source order. -/
def cleanExtractedLatex (latex : String) : String :=
  -- Fix vertical bars used as backslashes: |frac -> \frac
  let cleaned := applyRule (pipeCmdRule
    ["frac", "left", "right", "sqrt", "sin", "cos", "tan", "text",
     "Rightarrow", "neq", "leq", "geq", "pi"]) latex
  -- Fix angle brackets used as curly braces
  let cleaned := applyRule (litWsRule ("\\langle") ("\x7b")) cleaned
  let cleaned := applyRule rangleRule cleaned
  -- Fix \backslash -> \
  let cleaned := applyRule (litWsRule ("\\backslash") ("\\")) cleaned
  -- Fix spaced-out commands
  let cleaned := applyRule (spacedRule ("\\f") ['r', 'a', 'c'] ("\\frac")) cleaned
  let cleaned := applyRule (spacedRule ("\\s") ['q', 'r', 't'] ("\\sqrt")) cleaned
  let cleaned := applyRule (spacedRule ("\\t") ['e', 'x', 't'] ("\\text")) cleaned
  -- Fix \{operatorname{...} -> \...
  let cleaned := applyRule
    (wordWrapRule ("\\\x7boperatorname\x7b") operatornameWords ("\x7d\x7d") ("\\") ("")) cleaned
  let cleaned := applyRule
    (wordWrapRule ("\x7b\\operatorname\x7b") operatornameWords ("\x7d") ("\\") ("\x7b")) cleaned
  let cleaned := applyRule
    (wordWrapRule ("\\operatorname\x7b") operatornameWords ("\x7d") ("\\") ("")) cleaned
  -- Fix \left\{frac -> \left(\frac
  let cleaned := applyRule (litRule ("\\left\\\x7bfrac") ("\\left(\\frac")) cleaned
  let cleaned := applyRule (litRule ("\\left\x7bfrac") ("\\left(\\frac")) cleaned
  -- Fix broken frac syntax: \frac(a)(b) -> \frac{a}{b}
  let cleaned := applyRule
    (capTwoRule ("\\frac(") (")(") (")") ')' ("\\frac\x7b") ("\x7d\x7b") ("\x7d")) cleaned
  -- Fix \{frac{...}{...}\} -> \frac{...}{...}
  let cleaned := applyRule
    (capTwoRule ("\\\x7bfrac\x7b") ("\x7d\x7b") ("\x7d\x7d") '\x7d'
      ("\\frac\x7b") ("\x7d\x7b") ("\x7d")) cleaned
  let cleaned := applyRule
    (capTwoRule ("\x7bfrac\x7b") ("\x7d\x7b") ("\x7d") '\x7d'
      ("\\frac\x7b") ("\x7d\x7b") ("\x7d")) cleaned
  -- Fix right patterns
  let cleaned := applyRule (digitCapRule ("right\\^") ("\\right)^")) cleaned
  let cleaned := applyRule (digitCapRule ("\x7dright^") ("\\right)^")) cleaned
  let cleaned := applyRule (litRule ("\\right\x7d") ("\\right)")) cleaned
  let cleaned := applyRule (litRule ("(right)") ("\\right)")) cleaned
  -- Fix \mathrm{x} -> x for single letters
  let cleaned := applyRule (alphaCapRule ("\\mathrm\x7b") ("\x7d")) cleaned
  -- Fix ^ written as \wedge or \^
  let cleaned := applyRule (litRule ("\\wedge") ("^")) cleaned
  let cleaned := applyRule (litRule ("\\^") ("^")) cleaned
  -- Fix \underline{x} -> x
  let cleaned := applyRule (capOneRule ("\\underline\x7b") ("\x7d") '\x7d' ("") ("")) cleaned
  let cleaned := applyRule (capOneRule ("\\boldsymbol\x7b") ("\x7d") '\x7d' ("") ("")) cleaned
  -- Fix \quad spacing
  let cleaned := applyRule (litWsRule ("\\quad") (" ")) cleaned
  let cleaned := applyRule (litWsRule ("\\qquad") ("  ")) cleaned
  -- Fix double backslashes
  let cleaned := applyRule (litRule ("\\\\") (" ")) cleaned
  cleaned

/-! ## Dollar-delimited formula scanners

`createTextBlock` (`parser.ts:526`) scans its text with the global regexes
`/\$([^$]+)\$/g` (inline) and `/\$\$([^$]+)\$\$/g` (block);
`extractLatexExpressions` (`messages.ts:681`) uses the block regex and the
lookaround inline regex `/(?<!\$)\$(?!\$)([^$]+)\$(?!\$)/g`.  The scanners
below reproduce `RegExp.exec` loop semantics: leftmost match, greedy
`[^$]+` (whose only viable extent is the maximal dollar-free run), resume
after the end of each match, advance one position on failure.  Positions
count characters (the sources count UTF-16 units; they agree on the ASCII
data involved). -/

/-- Fuelled worker for the `/\$([^$]+)\$/g` scan.  Every step consumes
at least one character of the text (a successful match consumes the
whole match, a failure advances one position), so `l.length` fuel is
always sufficient; the fuel only makes the recursion structural. -/
def inlineMatchesF : Nat → List Char → Nat → List (Nat × String)
  | 0, _, _ => []
  | _ + 1, [], _ => []
  | fuel + 1, c :: rest, pos =>
    if c = '$' then
      let run := rest.takeWhile (fun x => x != '$')
      if run.isEmpty then inlineMatchesF fuel rest (pos + 1)
      else
        match rest.drop run.length with
        | d :: r2 =>
          if d = '$' then (pos, String.mk run) :: inlineMatchesF fuel r2 (pos + run.length + 2)
          else inlineMatchesF fuel rest (pos + 1)
        | [] => inlineMatchesF fuel rest (pos + 1)
    else inlineMatchesF fuel rest (pos + 1)

/-- All matches of `/\$([^$]+)\$/g`, as (index, captured group) pairs. -/
def inlineMatches (l : List Char) (pos : Nat) : List (Nat × String) :=
  inlineMatchesF l.length l pos

/-- Fuelled worker for the `/\$\$([^$]+)\$\$/g` scan. -/
def blockMatchesF : Nat → List Char → Nat → List (Nat × String)
  | 0, _, _ => []
  | _ + 1, [], _ => []
  | fuel + 1, c :: rest, pos =>
    if c = '$' then
      match rest with
      | c2 :: rest2 =>
        if c2 = '$' then
          let run := rest2.takeWhile (fun x => x != '$')
          if run.isEmpty then blockMatchesF fuel ('$' :: rest2) (pos + 1)
          else
            match rest2.drop run.length with
            | d :: dr =>
              if d = '$' then
                match dr with
                | e :: r2 =>
                  if e = '$' then
                    (pos, String.mk run) :: blockMatchesF fuel r2 (pos + run.length + 4)
                  else blockMatchesF fuel ('$' :: rest2) (pos + 1)
                | [] => blockMatchesF fuel ('$' :: rest2) (pos + 1)
              else blockMatchesF fuel ('$' :: rest2) (pos + 1)
            | [] => blockMatchesF fuel ('$' :: rest2) (pos + 1)
        else blockMatchesF fuel (c2 :: rest2) (pos + 1)
      | [] => blockMatchesF fuel [] (pos + 1)
    else blockMatchesF fuel rest (pos + 1)

/-- All matches of `/\$\$([^$]+)\$\$/g`, as (index, captured group) pairs. -/
def blockMatches (l : List Char) (pos : Nat) : List (Nat × String) :=
  blockMatchesF l.length l pos

/-- Fuelled worker for the lookaround inline scan.  `prevDollar` records
whether the character before the current position is a dollar sign (the
lookbehind's subject); the lookaheads are read off the unconsumed
remainder. -/
def lookInlineMatchesF : Nat → List Char → Nat → Bool → List (Nat × String)
  | 0, _, _, _ => []
  | _ + 1, [], _, _ => []
  | fuel + 1, c :: rest, pos, prevDollar =>
    if c = '$' then
      if prevDollar then lookInlineMatchesF fuel rest (pos + 1) true
      else
        let run := rest.takeWhile (fun x => x != '$')
        if run.isEmpty then lookInlineMatchesF fuel rest (pos + 1) true
        else
          match rest.drop run.length with
          | d :: dr =>
            if d = '$' then
              match dr with
              | e :: _ =>
                if e = '$' then lookInlineMatchesF fuel rest (pos + 1) true
                else
                  (pos, String.mk run) :: lookInlineMatchesF fuel dr (pos + run.length + 2) true
              | [] =>
                (pos, String.mk run) :: lookInlineMatchesF fuel dr (pos + run.length + 2) true
            else lookInlineMatchesF fuel rest (pos + 1) true
          | [] => lookInlineMatchesF fuel rest (pos + 1) true
    else lookInlineMatchesF fuel rest (pos + 1) (c == '$')

/-- All matches of `/(?<!\$)\$(?!\$)([^$]+)\$(?!\$)/g`. -/
def lookInlineMatches (l : List Char) (pos : Nat) (prevDollar : Bool) :
    List (Nat × String) :=
  lookInlineMatchesF l.length l pos prevDollar

/-! ## The data model (`src/types/index.d.ts`) -/

/-- `LatexExpression` of `src/types/index.d.ts`. -/
structure LatexExpression where
  raw : String
  isBlock : Bool
  position : Nat
deriving Repr, DecidableEq

/-- The return entries of `extractLatexExpressions` (`messages.ts:681`). -/
structure LatexRange where
  raw : String
  isBlock : Bool
  startIndex : Nat
  endIndex : Nat
deriving Repr, DecidableEq

/-- `ContentBlock` of `src/types/index.d.ts` (tagged union). -/
inductive ContentBlock where
  | text (content : String) (hasLatex : Bool) (latexExpressions : List LatexExpression)
  | code (language : Option String) (content : String) (filename : Option String)
  | table (headers : List String) (rows : List (List String))
  | image (src : String) (alt : String) (isGenerated : Bool)
  | thinking (content : String) (isCollapsed : Bool)
deriving Repr, DecidableEq

/-- `MessageRole` of `src/types/index.d.ts`: exactly two values. -/
inductive MessageRole where
  | user
  | assistant
deriving Repr, DecidableEq

/-- The three-valued result of role detection
(`getMessageRole`, `selectors.ts:259`). -/
inductive RoleDetect where
  | user
  | assistant
  | unknown
deriving Repr, DecidableEq

/-- `Message` of `src/types/index.d.ts`.  `timestamp` is always `none` in
the modelled code (`null` in the source). -/
structure Message where
  id : String
  index : Nat
  role : MessageRole
  content : List ContentBlock
  rawHtml : String
  timestamp : Option String
  isSelected : Bool
deriving Repr, DecidableEq

/-- `ExtractionOptions` of `src/content/dom/types.ts`. -/
structure ExtractionOptions where
  includeRawHtml : Bool
  extractTimestamps : Bool
  parseLaTeX : Bool
  parseCodeBlocks : Bool
  parseTables : Bool
  includeThinkingBlocks : Bool
  maxMessages : Nat
deriving Repr, DecidableEq

/-- `DEFAULT_EXTRACTION_OPTIONS` of `src/content/dom/types.ts`. -/
def DEFAULT_EXTRACTION_OPTIONS : ExtractionOptions :=
  { includeRawHtml := true
    extractTimestamps := true
    parseLaTeX := true
    parseCodeBlocks := true
    parseTables := true
    includeThinkingBlocks := true
    maxMessages := 0 }

/-- `createTextBlock` (`parser.ts:526`): build a text block, recording
every inline match and then every block match of the dollar regexes, with
`hasLatex` set whenever either scan produced a match. -/
def createTextBlock (text : String) (options : ExtractionOptions) : ContentBlock :=
  if options.parseLaTeX then
    let inl := (inlineMatches text.data 0).map
      (fun m => ({ raw := m.2, isBlock := false, position := m.1 } : LatexExpression))
    let blk := (blockMatches text.data 0).map
      (fun m => ({ raw := m.2, isBlock := true, position := m.1 } : LatexExpression))
    let exprs := inl ++ blk
    ContentBlock.text text (!exprs.isEmpty) exprs
  else
    ContentBlock.text text false []

/-- Stable insertion by `startIndex` (models the stable
`Array.prototype.sort` with comparator `a.startIndex - b.startIndex`). -/
def insertByStart (e : LatexRange) : List LatexRange → List LatexRange
  | [] => [e]
  | x :: xs =>
    if e.startIndex < x.startIndex then e :: x :: xs else x :: insertByStart e xs

/-- Stable sort by `startIndex`. -/
def sortByStart (l : List LatexRange) : List LatexRange :=
  l.foldr insertByStart []

/-- `extractLatexExpressions` (`messages.ts:681`): block matches first,
then each lookaround-inline match that does not start inside an already
recorded expression, finally sorted by start position. -/
def extractLatexExpressions (text : String) : List LatexRange :=
  let blocks := (blockMatches text.data 0).map
    (fun m => ({ raw := m.2, isBlock := true, startIndex := m.1,
                 endIndex := m.1 + m.2.length + 4 } : LatexRange))
  let withInline := (lookInlineMatches text.data 0 false).foldl
    (fun acc m =>
      if acc.any (fun e => decide (e.startIndex ≤ m.1) && decide (m.1 < e.endIndex)) then acc
      else acc ++ [({ raw := m.2, isBlock := false, startIndex := m.1,
                      endIndex := m.1 + m.2.length + 2 } : LatexRange)])
    blocks
  sortByStart withInline

/-! ## The DOM model

A detached, immutable tree: elements with a tag, an attribute list and
ordered children, plus text nodes.  Document order of a query result is
preorder traversal order.  Where the source relies on reference identity
of elements (the deduplicating selector strategy 5), elements are
identified by their path from the document root. -/

/-- A DOM node. -/
inductive DomNode where
  | elem (tag : String) (attrs : List (String × String)) (children : List DomNode)
  | text (s : String)
deriving Repr

/-- Is this node an element? -/
def isElem : DomNode → Bool
  | .elem _ _ _ => true
  | .text _ => false

/-- Tag name (lower-case by convention of the model); `""` for text. -/
def tagName : DomNode → String
  | .elem t _ _ => t
  | .text _ => ""

/-- Child list (`childNodes`); empty for text nodes. -/
def childNodes : DomNode → List DomNode
  | .elem _ _ cs => cs
  | .text _ => []

/-- `getAttribute`: first binding of the attribute, if present. -/
def getAttr (n : DomNode) (key : String) : Option String :=
  match n with
  | .elem _ attrs _ => (attrs.find? (fun kv => kv.1 = key)).map (fun kv => kv.2)
  | .text _ => none

/-- `className`: the `class` attribute, or `""` when absent. -/
def className (n : DomNode) : String :=
  (getAttr n "class").getD ""

/-- `classList.contains`: whitespace-separated token membership. -/
def hasClassToken (n : DomNode) (tok : String) : Bool :=
  (((className n).split isWs).filter (fun s => s ≠ "")).contains tok

/-- The class tokens of a node (`classList`). -/
def classTokens (n : DomNode) : List String :=
  ((className n).split isWs).filter (fun s => s ≠ "")

mutual

/-- `textContent` of a node: concatenation of all text descendants. -/
def textContent : DomNode → String
  | .text s => s
  | .elem _ _ cs => textContentList cs

/-- `textContent` over a child list. -/
def textContentList : List DomNode → String
  | [] => ""
  | n :: ns => textContent n ++ textContentList ns

end

mutual

/-- A node together with all of its descendants, preorder
(= document order). -/
def selfAndDesc : DomNode → List DomNode
  | .text s => [.text s]
  | .elem t a cs => DomNode.elem t a cs :: descList cs

/-- Preorder of a forest. -/
def descList : List DomNode → List DomNode
  | [] => []
  | n :: ns => selfAndDesc n ++ descList ns

end

/-- Strict descendants of a node, in document order. -/
def descendants : DomNode → List DomNode
  | .text _ => []
  | .elem _ _ cs => descList cs

/-- `element.querySelectorAll` for a predicate: matching strict
descendant elements in document order. -/
def queryAll (n : DomNode) (p : DomNode → Bool) : List DomNode :=
  (descendants n).filter (fun c => isElem c && p c)

/-- `element.querySelector`: first match or `none`. -/
def queryFirst (n : DomNode) (p : DomNode → Bool) : Option DomNode :=
  (queryAll n p).head?

/-- `document.querySelectorAll`: the root element itself is also
eligible. -/
def docAll (doc : DomNode) (p : DomNode → Bool) : List DomNode :=
  (selfAndDesc doc).filter (fun c => isElem c && p c)

/-- `document.querySelector`. -/
def docFirst (doc : DomNode) (p : DomNode → Bool) : Option DomNode :=
  (docAll doc p).head?

mutual

/-- Preorder traversal carrying each node's path from the root
(the list of child indices), modelling element reference identity. -/
def selfAndDescPath : DomNode → List Nat → List (List Nat × DomNode)
  | .text s, p => [(p, .text s)]
  | .elem t a cs, p => (p, DomNode.elem t a cs) :: descListPath cs p 0

/-- Path-carrying preorder of a forest starting at child index `i`. -/
def descListPath : List DomNode → List Nat → Nat → List (List Nat × DomNode)
  | [], _, _ => []
  | n :: ns, p, i => selfAndDescPath n (p ++ [i]) ++ descListPath ns p (i + 1)

end

/-- Node lookup by path. -/
def getAt : DomNode → List Nat → Option DomNode
  | n, [] => some n
  | .elem _ _ cs, i :: p =>
    match cs[i]? with
    | some c => getAt c p
    | none => none
  | .text _, _ :: _ => none

/-- Per-character HTML text escaping used by the `innerHTML` serializer
(`&`, `<`, `>`). -/
def escapeHtmlTextChar (c : Char) : List Char :=
  if c = '&' then "&amp;".data
  else if c = '<' then "&lt;".data
  else if c = '>' then "&gt;".data
  else [c]

/-- Serialize an attribute list.  (Attribute-value escaping is omitted:
no modelled input carries quotes inside attribute values.) -/
def attrsHtml : List (String × String) → String
  | [] => ""
  | kv :: rest => " " ++ kv.1 ++ "=\"" ++ kv.2 ++ "\"" ++ attrsHtml rest

mutual

/-- `outerHTML` of a node (model serializer). -/
def outerHtml : DomNode → String
  | .text s => String.mk (s.data.flatMap escapeHtmlTextChar)
  | .elem t a cs => "<" ++ t ++ attrsHtml a ++ ">" ++ innerHtmlList cs ++ "</" ++ t ++ ">"

/-- Serialization of a child list. -/
def innerHtmlList : List DomNode → String
  | [] => ""
  | n :: ns => outerHtml n ++ innerHtmlList ns

end

/-- `innerHTML` of an element; `""` for text nodes. -/
def innerHTML : DomNode → String
  | .text _ => ""
  | .elem _ _ cs => innerHtmlList cs

/-- First non-empty (JavaScript-truthy) string of a `||` chain. -/
def firstTruthy : List (Option String) → Option String
  | [] => none
  | some v :: rest => if v = "" then firstTruthy rest else some v
  | none :: rest => firstTruthy rest

/-! ## Selector resolution layer (`src/content/dom/selectors.ts`) -/

/-- The class/markup-substring and computed-style heuristics of
`getMessageRole` (`selectors.ts:273`–`289`).  The haystack is
`element.className + ' ' + element.innerHTML.substring(0, 500)`.  The
final computed-style check of the source returns `'unknown'` on both of
its branches, so it is modelled by the plain `unknown` result. -/
def roleFromHeuristics (element : DomNode) : RoleDetect :=
  let haystack := className element ++ " " ++ strTake (innerHTML element) 500
  if strContains haystack "user" || strContains haystack "human" then .user
  else if strContains haystack "assistant" || strContains haystack "gpt"
      || strContains haystack "ai" then .assistant
  else .unknown

/-- `getMessageRole` (`selectors.ts:259`): direct
`data-message-author-role` attribute, then the same attribute on a
descendant, then the class/markup heuristics. -/
def getMessageRole (element : DomNode) : RoleDetect :=
  let roleAttr := getAttr element "data-message-author-role"
  if roleAttr = some "user" then .user
  else if roleAttr = some "assistant" then .assistant
  else
    match queryFirst element (fun n => (getAttr n "data-message-author-role").isSome) with
    | some nested =>
      let nestedRole := getAttr nested "data-message-author-role"
      if nestedRole = some "user" then .user
      else if nestedRole = some "assistant" then .assistant
      else roleFromHeuristics element
    | none => roleFromHeuristics element

/-- Try a list of selector predicates in order, returning the first
`querySelector` hit (`getMessageContent`, `selectors.ts:295`). -/
def firstSelectorHit (element : DomNode) : List (DomNode → Bool) → Option DomNode
  | [] => none
  | p :: ps =>
    match queryFirst element p with
    | some x => some x
    | none => firstSelectorHit element ps

/-- `getMessageContent` (`selectors.ts:295`): six content selectors in
order, then the element itself when it has non-blank text. -/
def getMessageContent (element : DomNode) : Option DomNode :=
  let sels : List (DomNode → Bool) :=
    [ fun n => hasClassToken n "markdown",
      fun n => hasClassToken n "prose",
      fun n => strContains (className n) "markdown",
      fun n => strContains (className n) "prose",
      fun n => strContains (className n) "text-base",
      fun n => tagName n = "div" && strContains (className n) "whitespace" ]
  match firstSelectorHit element sels with
  | some content => some content
  | none =>
    if jsTrim (textContent element) ≠ "" then some element else none

/-- Strategy 1 of `findAllMessageElements` (`selectors.ts:216`):
`document.querySelectorAll('article')`. -/
def strategy1 (doc : DomNode) : List DomNode :=
  docAll doc (fun n => tagName n = "article")

/-- Strategy 2 (`selectors.ts:220`):
`[data-testid^="conversation-turn"]`. -/
def strategy2 (doc : DomNode) : List DomNode :=
  docAll doc (fun n =>
    match getAttr n "data-testid" with
    | some v => v.startsWith "conversation-turn"
    | none => false)

/-- Strategy 3 (`selectors.ts:224`): `[data-message-author-role]`. -/
def strategy3 (doc : DomNode) : List DomNode :=
  docAll doc (fun n => (getAttr n "data-message-author-role").isSome)

/-- Element children of a node with a given tag (one `>` step of a
`:scope > tag` selector). -/
def childElemsTag (n : DomNode) (t : String) : List DomNode :=
  (childNodes n).filter (fun c => isElem c && tagName c = t)

/-- Strategy 4 (`selectors.ts:228`–`238`): inside `main`, the
`:scope > div > div > div` great-grandchildren holding more than 20
characters of text; empty when there is no `main` element. -/
def strategy4 (doc : DomNode) : List DomNode :=
  match docFirst doc (fun n => tagName n = "main") with
  | some mainEl =>
    ((childElemsTag mainEl "div").flatMap fun d1 =>
      (childElemsTag d1 "div").flatMap fun d2 =>
        childElemsTag d2 "div").filter
      (fun el => (textContent el).length > 20)
  | none => []

/-- Keep the first occurrence of each path (JavaScript `Set` insertion
order). -/
def dedupPaths (l : List (List Nat)) : List (List Nat) :=
  l.foldl (fun acc p => if acc.contains p then acc else acc ++ [p]) []

/-- Strategy 5 (`selectors.ts:241`–`251`): grandparents of every element
whose class contains `prose` or `markdown`, deduplicated by identity
(modelled by tree paths), in first-insertion order.  Empty when no such
content element exists or none has a grandparent. -/
def strategy5 (doc : DomNode) : List DomNode :=
  let contentElements := (selfAndDescPath doc []).filter
    (fun pc => isElem pc.2 &&
      (strContains (className pc.2) "prose" || strContains (className pc.2) "markdown"))
  let parentPaths := contentElements.filterMap
    (fun pc => if pc.1.length ≥ 2 then some (pc.1.take (pc.1.length - 2)) else none)
  (dedupPaths parentPaths).filterMap (fun p => getAt doc p)

/-- `findAllMessageElements` (`selectors.ts:214`): five strategies in
strict priority order; the first non-empty result wins. -/
def findAllMessageElements (doc : DomNode) : List DomNode :=
  let s1 := strategy1 doc
  if !s1.isEmpty then s1
  else
    let s2 := strategy2 doc
    if !s2.isEmpty then s2
    else
      let s3 := strategy3 doc
      if !s3.isEmpty then s3
      else
        let s4 := strategy4 doc
        if !s4.isEmpty then s4
        else strategy5 doc

/-! ## Structural text extraction (`getElementTextWithStructure`,
`parser.ts:379`)

The source clones the element (`cloneNode(true)`) and performs all
rewrites on the clone; on immutable tree values cloning is the identity
and the rewrites are pure tree transformations.  Each
`querySelectorAll(...).forEach(el => el.replaceWith(...))` pass works on
a static node list in document order, so a replaced element's
descendants are detached before their own turn comes: the net effect is
to rewrite the outermost matching elements, which the recursions below
implement top-down. -/

mutual

/-- Replace each outermost element satisfying `p` by a text node
computed by `f` from it; other nodes are rebuilt with rewritten
children. -/
def replaceTopNode (p : DomNode → Bool) (f : DomNode → String) : DomNode → DomNode
  | .text s => .text s
  | .elem t a cs =>
    if p (DomNode.elem t a cs) then .text (f (DomNode.elem t a cs))
    else .elem t a (replaceTopList p f cs)

/-- `replaceTopNode` over a child list. -/
def replaceTopList (p : DomNode → Bool) (f : DomNode → String) :
    List DomNode → List DomNode
  | [] => []
  | n :: ns => replaceTopNode p f n :: replaceTopList p f ns

end

/-- Apply a replace pass to the strict descendants of the root
(`querySelectorAll` never matches the queried element itself). -/
def replaceDescendants (p : DomNode → Bool) (f : DomNode → String) :
    DomNode → DomNode
  | .text s => .text s
  | .elem t a cs => .elem t a (replaceTopList p f cs)

mutual

/-- Conditional math-element replacement: at each element, `tryR` (given
the updated ancestor flag) either produces the replacement text or lets
the recursion continue into the children — a matched element that lacks
its annotation is left in place while nested matches are still
processed, as in the source's static-list `forEach`. -/
def mathReplaceNode (tryR : Bool → DomNode → Option String)
    (upd : Bool → DomNode → Bool) (flag : Bool) : DomNode → DomNode
  | .text s => .text s
  | .elem t a cs =>
    let self := DomNode.elem t a cs
    let flag2 := upd flag self
    match tryR flag2 self with
    | some s => .text s
    | none => .elem t a (mathReplaceList tryR upd flag2 cs)

/-- `mathReplaceNode` over a child list. -/
def mathReplaceList (tryR : Bool → DomNode → Option String)
    (upd : Bool → DomNode → Bool) (flag : Bool) : List DomNode → List DomNode
  | [] => []
  | n :: ns => mathReplaceNode tryR upd flag n :: mathReplaceList tryR upd flag ns

end

/-- KaTeX replacement attempt (`parser.ts:400`–`410`): for an element
with class token `katex`, recover the original LaTeX from the
`annotation[encoding="application/x-tex"]` descendant (skip when absent
or empty), clean it, and reconstruct `$...$` or `$$...$$` text.  `disp`
is the `closest('.katex-display')` test: whether self or an ancestor
inside the clone carries the `katex-display` class token. -/
def katexTry (disp : Bool) (self : DomNode) : Option String :=
  if hasClassToken self "katex" then
    match queryFirst self (fun n =>
        tagName n = "annotation" && getAttr n "encoding" = some "application/x-tex") with
    | some annotEl =>
      let raw := textContent annotEl
      if raw = "" then none
      else
        let latex := cleanExtractedLatex (jsTrim raw)
        let d := if disp then "$$" else "$"
        some (d ++ latex ++ d)
    | none => none
  else none

/-- MathJax replacement attempt (`parser.ts:413`–`425`): `data-formula`
attribute or a `script[type*="math"]` descendant's text; block when
`display="block"` or class token `MathJax_Display`. -/
def mjxTry (_ : Bool) (self : DomNode) : Option String :=
  if tagName self = "mjx-container" then
    let scriptText := (queryFirst self (fun n =>
        tagName n = "script" && strContains ((getAttr n "type").getD "") "math")).map textContent
    match firstTruthy [getAttr self "data-formula", scriptText] with
    | some formula =>
      let latex := cleanExtractedLatex formula
      let isBlock := getAttr self "display" = some "block" || hasClassToken self "MathJax_Display"
      let d := if isBlock then "$$" else "$"
      some (d ++ latex ++ d)
    | none => none
  else none

/-- `span.math` replacement attempt (`parser.ts:428`–`439`):
`data-latex`, `data-value`, or an `annotation` descendant's text; block
when class token `math-display`. -/
def spanMathTry (_ : Bool) (self : DomNode) : Option String :=
  if tagName self = "span" &&
      (hasClassToken self "math" || hasClassToken self "math-inline"
        || hasClassToken self "math-display") then
    let annotText := (queryFirst self (fun n => tagName n = "annotation")).map textContent
    match firstTruthy [getAttr self "data-latex", getAttr self "data-value", annotText] with
    | some rawLatex =>
      let latex := cleanExtractedLatex rawLatex
      let isBlock := hasClassToken self "math-display"
      let d := if isBlock then "$$" else "$"
      some (d ++ latex ++ d)
    | none => none
  else none

/-- The KaTeX pass over the strict descendants of the clone root; the
`closest` flag starts with the root's own `katex-display` membership,
because `closest` inspects the element itself and every ancestor up to
the detached clone root. -/
def katexPhase : DomNode → DomNode
  | .text s => .text s
  | .elem t a cs =>
    .elem t a (mathReplaceList katexTry
      (fun f n => f || hasClassToken n "katex-display")
      (hasClassToken (DomNode.elem t a cs) "katex-display") cs)

/-- The MathJax pass over strict descendants (no ancestor state). -/
def mjxPhase : DomNode → DomNode
  | .text s => .text s
  | .elem t a cs => .elem t a (mathReplaceList mjxTry (fun f _ => f) false cs)

/-- The `span.math` pass over strict descendants (no ancestor state). -/
def spanMathPhase : DomNode → DomNode
  | .text s => .text s
  | .elem t a cs => .elem t a (mathReplaceList spanMathTry (fun f _ => f) false cs)

/-- The block-level tags that receive a trailing newline
(`parser.ts:447`). -/
def blockTags : List String := ["p", "div", "h1", "h2", "h3", "h4", "h5", "h6"]

mutual

/-- Append `'\n'` after each block element with non-empty text
(`parser.ts:447`–`451`).  The text test sees the element's subtree as it
stood when the static list was collected: appends happen only at the end
of an element's own child list, so they never change the test outcome of
a later element. -/
def appendNLNode : DomNode → DomNode
  | .text s => .text s
  | .elem t a cs =>
    let cs2 := appendNLList cs
    if blockTags.contains t && textContent (DomNode.elem t a cs) != "" then
      .elem t a (cs2 ++ [DomNode.text "\n"])
    else .elem t a cs2

/-- `appendNLNode` over a child list. -/
def appendNLList : List DomNode → List DomNode
  | [] => []
  | n :: ns => appendNLNode n :: appendNLList ns

end

/-- The append-newline pass over strict descendants of the clone root. -/
def appendNLPhase : DomNode → DomNode
  | .text s => .text s
  | .elem t a cs => .elem t a (appendNLList cs)

/-- `getElementTextWithStructure` (`parser.ts:379`): clone, strip
strikethrough, recover math sources, normalise line breaks, and read the
resulting `textContent`. -/
def getElementTextWithStructure (element : DomNode) : String :=
  -- Clone to avoid modifying original (cloneNode on a value is the value)
  let clone := element
  -- Remove strikethrough/deleted text elements
  let clone := replaceDescendants
    (fun n => ["del", "s", "strike"].contains (tagName n)) textContent clone
  -- Remove any elements with text-decoration: line-through
  let clone := replaceDescendants
    (fun n => strContains ((getAttr n "style").getD "") "line-through") textContent clone
  -- KaTeX rendered math -> $...$ / $$...$$ source text
  let clone := katexPhase clone
  -- MathJax rendered math
  let clone := mjxPhase clone
  -- Math wrapped in span with specific classes
  let clone := spanMathPhase clone
  -- Replace <br> with newlines
  let clone := replaceDescendants (fun n => tagName n = "br") (fun _ => "\n") clone
  -- Add newlines after block elements
  let clone := appendNLPhase clone
  textContent clone

/-- The observable effect of one `getElementTextWithStructure` call on
the page: the extracted text, together with the live element as it
stands after the call.  Every mutation of the source acts on the
`cloneNode(true)` copy (`parser.ts:381`), never on the live element, so
the live element passes through. -/
def getElementTextWithStructureCall (element : DomNode) : String × DomNode :=
  (getElementTextWithStructure element, element)

/-! ## Content block parsing (`parser.ts:264`–`664`) -/

/-- `/\n+/g → ' '` used when flattening list items (`parser.ts:368`). -/
def newlineRunRule : Matcher := fun l =>
  match l with
  | '\n' :: rest => some (" ", rest.dropWhile (fun c => c == '\n'))
  | _ => none

/-- `parseListToText` (`parser.ts:358`): flatten `:scope > li` items into
numbered (`"N. "`) or bulleted lines.  The bullet string is the exact
(mojibake) literal of the source. -/
def parseListToText (listElement : DomNode) (isOrdered : Bool) : String :=
  let items := childElemsTag listElement "li"
  let lines := items.enum.filterMap (fun p =>
    let pre := if isOrdered then toString (p.1 + 1) ++ ". " else "â€¢ "
    let t := jsTrim (getElementTextWithStructure p.2)
    if t = "" then none else some (pre ++ applyRule newlineRunRule t))
  String.intercalate "\n" lines

/-- `parseCodeBlock` (`parser.ts:566`): code text from the `code`
descendant (or the element), language from a `language-*`/`lang-*` class
token, filename sniffed below the parent element. -/
def parseCodeBlock (element : DomNode) (parent : Option DomNode) : Option ContentBlock :=
  let codeElement := (queryFirst element (fun n => tagName n = "code")).getD element
  let code := textContent codeElement
  if jsTrim code = "" then none
  else
    let language := ((classTokens codeElement).find?
        (fun c => c.startsWith "language-" || c.startsWith "lang-")).map
      (fun c => if c.startsWith "language-" then c.drop 9 else c.drop 5)
    let filename :=
      match parent with
      | some par =>
        match queryFirst par (fun n =>
            strContains (className n) "filename" || strContains (className n) "file-name") with
        | some fe =>
          let t := jsTrim (textContent fe)
          if t = "" then none else some t
        | none => none
      | none => none
    some (ContentBlock.code language (jsTrim code) filename)

/-- `parseTableBlock` (`parser.ts:601`): headers from `thead th, thead td`
(else the first row), body rows from `tbody tr` (else every row after the
first), empty rows skipped. -/
def parseTableBlock (element : DomNode) : ContentBlock :=
  let theadList := queryAll element (fun n => tagName n = "thead")
  let headers := (theadList.flatMap (fun th =>
      queryAll th (fun n => tagName n = "th" || tagName n = "td"))).map
    (fun c => jsTrim (textContent c))
  let headers :=
    if headers.isEmpty then
      match queryFirst element (fun n => tagName n = "tr") with
      | some firstRow =>
        (queryAll firstRow (fun n => tagName n = "th" || tagName n = "td")).map
          (fun c => jsTrim (textContent c))
      | none => []
    else headers
  let tbodyList := queryAll element (fun n => tagName n = "tbody")
  let bodyRows := tbodyList.flatMap (fun tb => queryAll tb (fun n => tagName n = "tr"))
  let rows := bodyRows.filterMap (fun row =>
    let rowData := (queryAll row (fun n => tagName n = "td")).map
      (fun c => jsTrim (textContent c))
    if rowData.isEmpty then none else some rowData)
  let rows :=
    if rows.isEmpty then
      ((queryAll element (fun n => tagName n = "tr")).drop 1).filterMap (fun row =>
        let rowData := (queryAll row (fun n => tagName n = "td" || tagName n = "th")).map
          (fun c => jsTrim (textContent c))
        if rowData.isEmpty then none else some rowData)
    else rows
  ContentBlock.table headers rows

/-- `isThinkingElement` (`parser.ts:346`): the `[data-thinking]` /
`[class*="thinking"]` selector union (the source's further two disjuncts
repeat these two tests). -/
def isThinkingElement (element : DomNode) : Bool :=
  (getAttr element "data-thinking").isSome || strContains (className element) "thinking"

/-- `parseThinkingBlock` (`parser.ts:657`). -/
def parseThinkingBlock (element : DomNode) : ContentBlock :=
  ContentBlock.thinking (jsTrim (textContent element))
    ((getAttr element "data-collapsed" = some "true") || hasClassToken element "collapsed")

/-- Classification of one element child of the content element
(`parseContentBlocks` loop body, `parser.ts:291`–`330`). -/
def classifyChild (child parent : DomNode) (options : ExtractionOptions) :
    Option ContentBlock :=
  let tag := tagName child
  if tag = "pre" && options.parseCodeBlocks then parseCodeBlock child (some parent)
  else if tag = "table" && options.parseTables then some (parseTableBlock child)
  else if options.includeThinkingBlocks && isThinkingElement child then
    some (parseThinkingBlock child)
  else if tag = "ol" || tag = "ul" then
    let listText := parseListToText child (tag = "ol")
    if listText = "" then none else some (createTextBlock listText options)
  else
    let t := getElementTextWithStructure child
    if jsTrim t = "" then none else some (createTextBlock t options)

/-- `parseContentBlocks` (`parser.ts:272`): no element children — one
text block over the trimmed text; otherwise classify each element child
in order, falling back to one text block over the whole text when the
pass yields nothing. -/
def parseContentBlocks (contentElement : DomNode) (options : ExtractionOptions) :
    List ContentBlock :=
  let elemChildren := (childNodes contentElement).filter isElem
  if elemChildren.isEmpty then
    let t := jsTrim (textContent contentElement)
    if t = "" then [] else [createTextBlock t options]
  else
    let blocks := elemChildren.filterMap (fun child => classifyChild child contentElement options)
    if blocks.isEmpty then
      let allText := jsTrim (textContent contentElement)
      if allText = "" then [] else [createTextBlock allText options]
    else blocks

/-! ## Message parsing and extraction (`parser.ts:109`–`262`) -/

/-- `extractMessageId` (`parser.ts:243`): a `[data-message-id]`
descendant's attribute (returned unconditionally once the descendant
exists), else a truthy `data-testid`, else a truthy `id`, else `none`. -/
def extractMessageId (element : DomNode) : Option String :=
  match queryFirst element (fun n => (getAttr n "data-message-id").isSome) with
  | some el => getAttr el "data-message-id"
  | none =>
    match getAttr element "data-testid" with
    | some t =>
      if t ≠ "" then some t
      else
        match getAttr element "id" with
        | some i => if i ≠ "" then some i else none
        | none => none
    | none =>
      match getAttr element "id" with
      | some i => if i ≠ "" then some i else none
      | none => none

/-- `parseMessageElement` (`parser.ts:197`): resolve the role, extract
the content blocks, skip fully empty unknown-role elements, and default
an unknown role by position parity (even index → user, odd →
assistant). -/
def parseMessageElement (element : DomNode) (index : Nat)
    (options : ExtractionOptions) : Option Message :=
  let role := getMessageRole element
  let contentElement := getMessageContent element
  let content :=
    match contentElement with
    | some ce => parseContentBlocks ce options
    | none => []
  let rawHtml := (firstTruthy [contentElement.map innerHTML, some (innerHTML element)]).getD ""
  if role = RoleDetect.unknown && content.isEmpty && jsTrim rawHtml = "" then none
  else
    let messageId :=
      match extractMessageId element with
      | some s => if s ≠ "" then s else "msg-" ++ toString index
      | none => "msg-" ++ toString index
    let finalRole : MessageRole :=
      match role with
      | .unknown => if index % 2 = 0 then .user else .assistant
      | .user => .user
      | .assistant => .assistant
    some { id := messageId, index := index, role := finalRole, content := content,
           rawHtml := rawHtml, timestamp := none, isSelected := true }

/-- The result record of `extractMessages`
(`ExtractionResult<Message[]>`, `src/content/dom/types.ts`). -/
structure MessageExtractionResult where
  success : Bool
  data : Option (List Message)
  error : Option String
  warnings : List String
deriving Repr

/-- `extractMessages` (`parser.ts:112`): locate message elements; when
none are found fall back to a single assistant message over `main`'s
text (with a warning) before giving up with a call-level error; enforce
the soft message cap with a warning and truncation; parse each element
(the model's parse functions are total, so the source's per-message
`catch` warnings cannot arise); fail when nothing parsed. -/
def extractMessages (doc : DomNode) (options : ExtractionOptions) :
    MessageExtractionResult :=
  let messageElements := findAllMessageElements doc
  if messageElements.isEmpty then
    match docFirst doc (fun n => tagName n = "main") with
    | some mainEl =>
      let warnings := ["Using fallback extraction - structure may not be ideal"]
      let content := textContent mainEl
      if jsTrim content ≠ "" then
        { success := true
          data := some [{ id := "fallback-0", index := 0, role := .assistant,
                          content := [ContentBlock.text (jsTrim content) false []],
                          rawHtml := innerHTML mainEl, timestamp := none,
                          isSelected := true }]
          error := none
          warnings := warnings }
      else
        { success := false, data := none
          error := some "No messages found in conversation. Please make sure the page is fully loaded."
          warnings := warnings }
    | none =>
      { success := false, data := none
        error := some "No messages found in conversation. Please make sure the page is fully loaded."
        warnings := [] }
  else
    let warnings :=
      if options.maxMessages > 0 && messageElements.length > options.maxMessages then
        ["Conversation has " ++ toString messageElements.length
          ++ " messages, limiting to " ++ toString options.maxMessages]
      else []
    let elementsToProcess :=
      if options.maxMessages > 0 then messageElements.take options.maxMessages
      else messageElements
    let messages := elementsToProcess.enum.filterMap
      (fun p => parseMessageElement p.2 p.1 options)
    if messages.isEmpty then
      { success := false, data := none
        error := some "Failed to parse any messages", warnings := warnings }
    else
      { success := true, data := some messages, error := none, warnings := warnings }

/-! ## Export handler message cap (`src/service-worker/handlers`,
`handleStartExport`) and limits (`src/shared/config.ts`) -/

/-- `MESSAGE_LIMITS` of `src/shared/config.ts`. -/
structure MessageLimits where
  warning : Nat
  max : Nat
  progressIndicator : Nat
deriving Repr, DecidableEq

/-- `MESSAGE_LIMITS` values. -/
def MESSAGE_LIMITS : MessageLimits :=
  { warning := 500, max := 1000, progressIndicator := 100 }

/-- The synchronous outcome of `handleStartExport`: either an immediate
error message (no job is created, nothing is exported), or the export
starts over the selected messages. -/
inductive StartExportOutcome where
  | errorNoMessages (message : String) (recoverable : Bool)
  | errorLimitExceeded (message : String) (recoverable : Bool)
  | started (selectedMessages : List Message)
deriving Repr, DecidableEq

/-- `handleStartExport` (export handler): reject an empty selection,
reject a selection over the hard cap `MESSAGE_LIMITS.max` with a
non-recoverable error (before any job state is created), otherwise start
the export over the selected messages. -/
def handleStartExport (conversationMessages : List Message)
    (selectedMessageIds : List String) : StartExportOutcome :=
  if selectedMessageIds.length = 0 then
    .errorNoMessages "No messages selected for export" true
  else if selectedMessageIds.length > MESSAGE_LIMITS.max then
    .errorLimitExceeded
      ("Conversation exceeds " ++ toString MESSAGE_LIMITS.max ++ " message limit") false
  else
    .started (conversationMessages.filter (fun m => selectedMessageIds.contains m.id))

/-! ## The notation renderer adapter (`renderLatex`, `messages.ts:350`)

The KaTeX library is external; it is modelled by an oracle with one
entry for the strict first call (`throwOnError: true, trust: false,
strict: 'warn'`) and one for the lenient second call
(`throwOnError: false, trust: true, strict: false`), each mapping the
cleaned formula and display mode to rendered markup or a thrown error
message. -/

/-- The value returned by `renderLatex` (`RenderedLatex`). -/
structure RenderedLatex where
  html : String
  error : Option String
deriving Repr, DecidableEq

/-- Oracle for the two `katex.renderToString` configurations. -/
structure KatexOracle where
  strict : String → Bool → Except String String
  lenient : String → Bool → Except String String

/-- `escapeHtml` (`messages.ts:650`). -/
def escapeHtml (text : String) : String :=
  String.mk (text.data.flatMap (fun c =>
    if c = '&' then "&amp;".data
    else if c = '<' then "&lt;".data
    else if c = '>' then "&gt;".data
    else if c = '"' then "&quot;".data
    else if c = '\x27' then "&#39;".data
    else [c]))

/-- The formula actually passed to KaTeX by `renderLatex`
(`messages.ts:362`–`365`): trimmed, with one trailing period stripped. -/
def renderCleaned (latex : String) : String :=
  let t := jsTrim latex
  if t.endsWith "." then t.dropRight 1 else t

/-- The error-styled fallback markup of `renderLatex`
(`messages.ts:402`): the HTML-escaped original formula wrapped in an
inline `span` styled with the error color. -/
def renderErrorSpan (errorColor latex : String) : String :=
  "<span style=\"color: " ++ errorColor ++ "; font-family: monospace;\">"
    ++ escapeHtml latex ++ "</span>"

/-- `renderLatex` (`messages.ts:350`): trim, strip one trailing period,
try the strict render, then the lenient render; when both fail either
re-throw (`throwOnError`) or return the escaped original wrapped in an
error-styled span together with the captured first error. -/
def renderLatex (k : KatexOracle) (latex : String)
    (displayMode throwOnError : Bool) (errorColor : String) :
    Except String RenderedLatex :=
  let cleanedLatex := renderCleaned latex
  match k.strict cleanedLatex displayMode with
  | .ok html => .ok { html := html, error := none }
  | .error err =>
    match k.lenient cleanedLatex displayMode with
    | .ok html => .ok { html := html, error := none }
    | .error _ =>
      if throwOnError then .error err
      else
        .ok { html := renderErrorSpan errorColor latex
              error := some err }

/-! ## Concrete example inputs used by the witness theorems -/

/-- A page with no article/testid/role/markdown structure whose `main`
element nevertheless carries text: no selector strategy matches, but
`extractMessages`'s `main` fallback does. -/
def exDocFallback : DomNode :=
  .elem "html" [] [.elem "body" [] [.elem "main" [] [.text "hello world"]]]

/-- A page without any `main` element and no recognisable messages. -/
def exDocNoMain : DomNode :=
  .elem "html" [] [.elem "body" [] [.text "zz"]]

/-- A bare message element whose role cannot be detected. -/
def exArticle : DomNode :=
  .elem "article" [] [.text "hello"]

/-- A page with one article message element. -/
def exDocOneArticle : DomNode :=
  .elem "html" [] [.elem "body" [] [.elem "article" [] [.text "hi"]]]

/-- A page with two article message elements. -/
def exDocTwoArticles : DomNode :=
  .elem "html" [] [.elem "body" []
    [.elem "article" [] [.text "hello"], .elem "article" [] [.text "bonjour"]]]

/-- Extraction options with a soft cap of one message. -/
def exOptionsMax1 : ExtractionOptions :=
  { DEFAULT_EXTRACTION_OPTIONS with maxMessages := 1 }

/-- A KaTeX oracle on which both render configurations fail. -/
def exFailingOracle : KatexOracle :=
  { strict := fun _ _ => .error "KaTeX parse error"
    lenient := fun _ _ => .error "KaTeX lenient error" }

/-- The message `parseMessageElement` produces for `exArticle` at
index 0. -/
def exArticleMessage : Message :=
  { id := "msg-0", index := 0, role := .user,
    content := [ContentBlock.text "hello" false []],
    rawHtml := "hello", timestamp := none, isSelected := true }

/-! ## Helper lemmas -/

theorem strDataAppend (a b : String) : (a ++ b).data = a.data ++ b.data := by
  cases a; cases b; rfl

theorem strMkData (s : String) : String.mk s.data = s := by
  cases s; rfl

theorem strLengthData (s : String) : s.length = s.data.length := rfl

/-! ## Claim theorems -/

/-- **C3, counterexample.**  The claim states
`repair(repair(x)) = repair(x)` for every `x`, for both repair passes.
It fails: for `fixCorruptedLatexPatterns` at the input `\backslash$` and
for `cleanLatexContent` at the input `\backslash langle`, a second
application changes the result again. -/
theorem c3_counterexample :
    fixCorruptedLatexPatterns (fixCorruptedLatexPatterns "\\backslash$")
        ≠ fixCorruptedLatexPatterns "\\backslash$"
    ∧ cleanLatexContent (cleanLatexContent "\\backslash langle")
        ≠ cleanLatexContent "\\backslash langle" := by
  constructor
  · decide
  · decide

/-- **C3, amended.**  The notation repair passes are not idempotent: the
`\backslash`-word rule runs after the rules for `\$` and `\langle`, so a
first pass can produce fresh matches for those earlier rules that only a
second pass rewrites.  Concretely, `fixCorruptedLatexPatterns` maps
`\backslash$` to `\$` and `\$` to `$`, and `cleanLatexContent` maps
`\backslash langle` to `\langle` and `\langle` to `{}`. -/
theorem c3_amended :
    fixCorruptedLatexPatterns "\\backslash$" = "\\$"
    ∧ fixCorruptedLatexPatterns "\\$" = "$"
    ∧ cleanLatexContent "\\backslash langle" = "\\langle"
    ∧ cleanLatexContent "\\langle" = "\x7b\x7d" :=
  ⟨rfl, rfl, rfl, rfl⟩

/-- **C4.**  The trailing brace balancer of `cleanLatexContent`: when a
formula has more open than close braces, exactly the deficit of closing
braces is appended at the end (so the input is a prefix of the output —
no brace is removed — and the output has equally many open and close
braces); when close braces are greater than or equal to open braces, the
string is returned unchanged. -/
theorem c4_braceBalancer (s : String) :
    (countChar '\x7b' s > countChar '\x7d' s →
      balanceBraces s =
          s ++ String.mk (List.replicate (countChar '\x7b' s - countChar '\x7d' s) '\x7d')
      ∧ countChar '\x7b' (balanceBraces s) = countChar '\x7d' (balanceBraces s)
      ∧ s.data <+: (balanceBraces s).data)
    ∧ (countChar '\x7d' s ≥ countChar '\x7b' s → balanceBraces s = s) := by
  constructor
  · intro h
    have heq : balanceBraces s =
        s ++ String.mk (List.replicate (countChar '\x7b' s - countChar '\x7d' s) '\x7d') := by
      unfold balanceBraces
      simp only [gt_iff_lt]
      rw [if_pos h]
    have hdata : (balanceBraces s).data =
        s.data ++ List.replicate (countChar '\x7b' s - countChar '\x7d' s) '\x7d' := by
      rw [heq, strDataAppend]
    refine ⟨heq, ?_, ?_⟩
    · have h' : List.count '\x7b' s.data > List.count '\x7d' s.data := h
      unfold countChar
      rw [hdata, List.count_append, List.count_append, List.count_replicate,
        List.count_replicate]
      simp only [show (('\x7d' : Char) == '\x7b') = false by decide,
        show (('\x7d' : Char) == '\x7d') = true by decide, countChar]
      simp
      omega
    · exact ⟨_, hdata.symm⟩
  · intro h
    unfold balanceBraces
    simp only [gt_iff_lt]
    rw [if_neg (by omega)]

/-- **C4, witness.**  At the spec's example `\frac{1}{2`: one closing
brace is appended, and the full `cleanLatexContent` pass maps
`\frac{1}{2` to `\frac{1}{2}`. -/
theorem c4_braceBalancer_witness :
    countChar '\x7b' "\\frac\x7b1\x7d\x7b2" > countChar '\x7d' "\\frac\x7b1\x7d\x7b2"
    ∧ balanceBraces "\\frac\x7b1\x7d\x7b2" =
        "\\frac\x7b1\x7d\x7b2" ++ String.mk (List.replicate
          (countChar '\x7b' "\\frac\x7b1\x7d\x7b2" - countChar '\x7d' "\\frac\x7b1\x7d\x7b2") '\x7d')
    ∧ cleanLatexContent "\\frac\x7b1\x7d\x7b2" = "\\frac\x7b1\x7d\x7b2\x7d" := by
  refine ⟨by decide, ?_, by decide⟩
  exact ((c4_braceBalancer "\\frac\x7b1\x7d\x7b2").1 (by decide)).1

/-- **C7.**  `getElementTextWithStructure` never mutates the live input
element: all structural rewrites (strikethrough stripping, math-source
reconstruction, line-break conversion, block-newline insertion) are
applied to the `cloneNode(true)` copy, so after the call the live
element is exactly the input, and the produced text is read off the
transformed clone. -/
theorem c7_noLiveDomMutation (element : DomNode) :
    (getElementTextWithStructureCall element).2 = element
    ∧ (getElementTextWithStructureCall element).1 = getElementTextWithStructure element :=
  ⟨rfl, rfl⟩

/-- **C6.**  `renderLatex` without throw-on-error semantics never
throws: it always returns a value; on strict-pass success it returns the
strict markup; when the strict pass fails it consults the lenient pass;
and when both fail it returns the HTML-escaped original formula wrapped
in the error-styled span together with the captured (strict) error
message. -/
theorem c6_renderLatexTotal (k : KatexOracle) (latex : String)
    (displayMode : Bool) (errorColor : String) :
    (∃ r, renderLatex k latex displayMode false errorColor = Except.ok r)
    ∧ (∀ html, k.strict (renderCleaned latex) displayMode = .ok html →
        renderLatex k latex displayMode false errorColor =
          Except.ok { html := html, error := none })
    ∧ (∀ e html, k.strict (renderCleaned latex) displayMode = .error e →
        k.lenient (renderCleaned latex) displayMode = .ok html →
        renderLatex k latex displayMode false errorColor =
          Except.ok { html := html, error := none })
    ∧ (∀ e e2, k.strict (renderCleaned latex) displayMode = .error e →
        k.lenient (renderCleaned latex) displayMode = .error e2 →
        renderLatex k latex displayMode false errorColor =
          Except.ok { html := renderErrorSpan errorColor latex, error := some e }) := by
  refine ⟨?_, ?_, ?_, ?_⟩
  · simp only [renderLatex]
    cases hs : k.strict (renderCleaned latex) displayMode with
    | ok html => exact ⟨_, rfl⟩
    | error e =>
      cases hl : k.lenient (renderCleaned latex) displayMode with
      | ok html => exact ⟨_, rfl⟩
      | error e2 =>
        exact ⟨{ html := renderErrorSpan errorColor latex, error := some e }, by simp⟩
  · intro html hs
    simp only [renderLatex]
    rw [hs]
  · intro e html hs hl
    simp only [renderLatex]
    rw [hs, hl]
  · intro e e2 hs hl
    simp only [renderLatex]
    rw [hs, hl]
    simp

/-- **C6, witness.**  On an oracle whose two configurations both fail,
rendering `\frac{1` yields the escaped-original error span and the
strict error message, as a returned value. -/
theorem c6_renderLatexTotal_witness :
    exFailingOracle.strict (renderCleaned "\\frac\x7b1") false = .error "KaTeX parse error"
    ∧ renderLatex exFailingOracle "\\frac\x7b1" false false "#cc0000" =
        Except.ok { html := renderErrorSpan "#cc0000" "\\frac\x7b1",
                    error := some "KaTeX parse error" } := by
  refine ⟨rfl, ?_⟩
  exact (c6_renderLatexTotal exFailingOracle "\\frac\x7b1" false "#cc0000").2.2.2
    "KaTeX parse error" "KaTeX lenient error" rfl rfl

/-- **C2.**  The message-count caps.  Hard cap: `handleStartExport`
rejects a selection of 1001 messages against `MESSAGE_LIMITS.max = 1000`
with a non-recoverable limit error and starts no export (no partial
conversation is exported).  Soft cap: when the extraction option
`maxMessages` is positive and exceeded, `extractMessages` still
proceeds, records the limit warning, and any returned data is truncated
to at most `maxMessages` messages. -/
theorem c2_messageCaps :
    (∀ (conversationMessages : List Message) (ids : List String), ids.length = 1001 →
      handleStartExport conversationMessages ids =
        StartExportOutcome.errorLimitExceeded
          ("Conversation exceeds " ++ toString MESSAGE_LIMITS.max ++ " message limit") false)
    ∧ (∀ (doc : DomNode) (options : ExtractionOptions),
        0 < options.maxMessages →
        options.maxMessages < (findAllMessageElements doc).length →
        ("Conversation has " ++ toString (findAllMessageElements doc).length
            ++ " messages, limiting to " ++ toString options.maxMessages)
          ∈ (extractMessages doc options).warnings
        ∧ ∀ data, (extractMessages doc options).data = some data →
            data.length ≤ options.maxMessages) := by
  constructor
  · intro msgs ids h
    unfold handleStartExport
    rw [h]
    norm_num [MESSAGE_LIMITS]
  · intro doc options h1 h2
    have hnil : findAllMessageElements doc ≠ [] := by
      intro hh
      rw [hh] at h2
      simp at h2
    have hne : (findAllMessageElements doc).isEmpty = false := by
      simpa [List.isEmpty_iff] using hnil
    have hcond : (decide (options.maxMessages > 0)
        && decide ((findAllMessageElements doc).length > options.maxMessages)) = true := by
      simp only [Bool.and_eq_true, decide_eq_true_eq]
      exact ⟨h1, h2⟩
    have hlen : ((if options.maxMessages > 0 then
          (findAllMessageElements doc).take options.maxMessages
        else findAllMessageElements doc).enum.filterMap
          (fun p => parseMessageElement p.2 p.1 options)).length ≤ options.maxMessages := by
      rw [if_pos h1]
      calc ((((findAllMessageElements doc).take options.maxMessages).enum).filterMap
              (fun p => parseMessageElement p.2 p.1 options)).length
          ≤ (((findAllMessageElements doc).take options.maxMessages).enum).length :=
            List.length_filterMap_le _ _
        _ = ((findAllMessageElements doc).take options.maxMessages).length :=
            List.enum_length
        _ ≤ options.maxMessages := by rw [List.length_take]; omega
    constructor
    · simp only [extractMessages, hne, Bool.false_eq_true, if_false, hcond, if_true]
      by_cases hm : (((if options.maxMessages > 0 then
            (findAllMessageElements doc).take options.maxMessages
          else findAllMessageElements doc).enum.filterMap
            (fun p => parseMessageElement p.2 p.1 options)).isEmpty) = true
      · simp [hm]
      · simp [hm]
    · intro data hdata
      simp only [extractMessages, hne, Bool.false_eq_true, if_false, hcond, if_true] at hdata
      by_cases hm : (((if options.maxMessages > 0 then
            (findAllMessageElements doc).take options.maxMessages
          else findAllMessageElements doc).enum.filterMap
            (fun p => parseMessageElement p.2 p.1 options)).isEmpty) = true
      · simp [hm] at hdata
      · simp [hm] at hdata
        rw [← hdata]
        exact hlen

/-- **C2, witness.**  A selection of 1001 ids is rejected by the hard
cap; a two-article page with a soft cap of 1 warns and truncates. -/
theorem c2_messageCaps_witness :
    (List.replicate 1001 "m").length = 1001
    ∧ handleStartExport [] (List.replicate 1001 "m") =
        StartExportOutcome.errorLimitExceeded
          ("Conversation exceeds " ++ toString MESSAGE_LIMITS.max ++ " message limit") false
    ∧ 0 < exOptionsMax1.maxMessages
    ∧ exOptionsMax1.maxMessages < (findAllMessageElements exDocTwoArticles).length
    ∧ ("Conversation has " ++ toString (findAllMessageElements exDocTwoArticles).length
        ++ " messages, limiting to " ++ toString exOptionsMax1.maxMessages)
      ∈ (extractMessages exDocTwoArticles exOptionsMax1).warnings := by
  refine ⟨by rw [List.length_replicate], ?_, by decide,
    by rw [show (findAllMessageElements exDocTwoArticles).length = 2 from rfl]; decide, ?_⟩
  · exact c2_messageCaps.1 [] (List.replicate 1001 "m") (by rw [List.length_replicate])
  · exact (c2_messageCaps.2 exDocTwoArticles exOptionsMax1 (by decide)
      (by rw [show (findAllMessageElements exDocTwoArticles).length = 2 from rfl]; decide)).1

/-- **C5.**  `findAllMessageElements` tries its five strategies in
strict priority order: the first strategy with a non-empty result wins
and its result is returned verbatim; the empty sequence is returned
exactly when every strategy yields nothing. -/
theorem c5_selectorCascade (doc : DomNode) :
    (strategy1 doc ≠ [] → findAllMessageElements doc = strategy1 doc)
    ∧ (strategy1 doc = [] → strategy2 doc ≠ [] → findAllMessageElements doc = strategy2 doc)
    ∧ (strategy1 doc = [] → strategy2 doc = [] → strategy3 doc ≠ [] →
        findAllMessageElements doc = strategy3 doc)
    ∧ (strategy1 doc = [] → strategy2 doc = [] → strategy3 doc = [] → strategy4 doc ≠ [] →
        findAllMessageElements doc = strategy4 doc)
    ∧ (strategy1 doc = [] → strategy2 doc = [] → strategy3 doc = [] → strategy4 doc = [] →
        findAllMessageElements doc = strategy5 doc)
    ∧ (findAllMessageElements doc = [] ↔
        strategy1 doc = [] ∧ strategy2 doc = [] ∧ strategy3 doc = [] ∧ strategy4 doc = []
          ∧ strategy5 doc = []) := by
  by_cases h1 : strategy1 doc = [] <;>
    by_cases h2 : strategy2 doc = [] <;>
      by_cases h3 : strategy3 doc = [] <;>
        by_cases h4 : strategy4 doc = [] <;>
          simp [findAllMessageElements, List.isEmpty_iff, h1, h2, h3, h4]

/-- **C5, witness.**  On a one-article page strategy 1 matches and its
result is returned. -/
theorem c5_selectorCascade_witness :
    strategy1 exDocOneArticle ≠ []
    ∧ findAllMessageElements exDocOneArticle = strategy1 exDocOneArticle := by
  have hne : strategy1 exDocOneArticle ≠ [] := by
    rw [show strategy1 exDocOneArticle = [DomNode.elem "article" [] [DomNode.text "hi"]] from rfl]
    exact List.cons_ne_nil _ _
  exact ⟨hne, (c5_selectorCascade exDocOneArticle).1 hne⟩

/-- **C8.**  Whenever `parseMessageElement` yields a message, an
`unknown` detected role is resolved by zero-based position parity (even
index → user, odd index → assistant), a detected role is kept, and the
resulting role is always one of the two `MessageRole` values (the
`Message` type admits no `unknown`). -/
theorem c8_rolePositionParity (element : DomNode) (index : Nat)
    (options : ExtractionOptions) (msg : Message)
    (h : parseMessageElement element index options = some msg) :
    (getMessageRole element = RoleDetect.unknown →
      msg.role = if index % 2 = 0 then MessageRole.user else MessageRole.assistant)
    ∧ (getMessageRole element = RoleDetect.user → msg.role = MessageRole.user)
    ∧ (getMessageRole element = RoleDetect.assistant → msg.role = MessageRole.assistant) := by
  have key : msg.role =
      (match getMessageRole element with
        | RoleDetect.unknown =>
            if index % 2 = 0 then MessageRole.user else MessageRole.assistant
        | RoleDetect.user => MessageRole.user
        | RoleDetect.assistant => MessageRole.assistant) := by
    simp only [parseMessageElement] at h
    split at h
    · simp at h
    · have hm := Option.some.inj h
      rw [← hm]
  refine ⟨?_, ?_, ?_⟩ <;> intro hrole <;> rw [key, hrole]

set_option maxRecDepth 8192 in
/-- **C8, witness.**  A role-less article at index 0 becomes a user
message. -/
theorem c8_rolePositionParity_witness :
    getMessageRole exArticle = RoleDetect.unknown
    ∧ parseMessageElement exArticle 0 DEFAULT_EXTRACTION_OPTIONS = some exArticleMessage
    ∧ exArticleMessage.role = MessageRole.user := by
  refine ⟨rfl, by decide, ?_⟩
  have h := (c8_rolePositionParity exArticle 0 DEFAULT_EXTRACTION_OPTIONS
    exArticleMessage (by decide)).1 rfl
  simpa using h

/-- **C1, counterexample.**  The claim says that when no selector
strategy locates any message element, the extraction call returns an
error result with `success = false` and no data.  It fails: on
`exDocFallback` every strategy yields nothing, yet `extractMessages`
returns a successful result (with data) through its `main`-text
fallback. -/
theorem c1_counterexample :
    findAllMessageElements exDocFallback = []
    ∧ (extractMessages exDocFallback DEFAULT_EXTRACTION_OPTIONS).success = true
    ∧ (extractMessages exDocFallback DEFAULT_EXTRACTION_OPTIONS).data.isSome = true
    ∧ (extractMessages exDocFallback DEFAULT_EXTRACTION_OPTIONS).error = none :=
  ⟨rfl, rfl, rfl, rfl⟩

/-- **C1, amended.**  When no selector strategy locates any message
element, `extractMessages` does not throw and never returns partial
per-strategy data; it returns the call-level error result (success =
false, no data) unless the document has a `main` element with non-blank
text, in which case it returns a successful result holding exactly one
fallback assistant message over `main`'s trimmed text, with a fallback
warning. -/
theorem c1_amended (doc : DomNode) (options : ExtractionOptions)
    (h : findAllMessageElements doc = []) :
    (∀ mainEl, docFirst doc (fun n => tagName n = "main") = some mainEl →
      (jsTrim (textContent mainEl) ≠ "" →
        extractMessages doc options =
          { success := true
            data := some [{ id := "fallback-0", index := 0, role := .assistant,
                            content := [ContentBlock.text (jsTrim (textContent mainEl)) false []],
                            rawHtml := innerHTML mainEl, timestamp := none,
                            isSelected := true }]
            error := none
            warnings := ["Using fallback extraction - structure may not be ideal"] })
      ∧ (jsTrim (textContent mainEl) = "" →
        extractMessages doc options =
          { success := false, data := none
            error := some "No messages found in conversation. Please make sure the page is fully loaded."
            warnings := ["Using fallback extraction - structure may not be ideal"] }))
    ∧ (docFirst doc (fun n => tagName n = "main") = none →
      extractMessages doc options =
        { success := false, data := none
          error := some "No messages found in conversation. Please make sure the page is fully loaded."
          warnings := [] }) := by
  constructor
  · intro mainEl hmain
    constructor
    · intro ht
      simp only [extractMessages, h, List.isEmpty_nil, if_true, hmain]
      rw [if_pos ht]
    · intro ht
      simp only [extractMessages, h, List.isEmpty_nil, if_true, hmain]
      rw [if_neg (by simp [ht])]
  · intro hmain
    simp only [extractMessages, h, List.isEmpty_nil, if_true, hmain]

/-- **C1, witness.**  The two branches of the amended claim at concrete
pages: `exDocFallback` (main with text — success) and `exDocNoMain`
(error result). -/
theorem c1_amended_witness :
    findAllMessageElements exDocFallback = []
    ∧ docFirst exDocFallback (fun n => tagName n = "main") =
        some (DomNode.elem "main" [] [DomNode.text "hello world"])
    ∧ jsTrim (textContent (DomNode.elem "main" [] [DomNode.text "hello world"])) ≠ ""
    ∧ (extractMessages exDocFallback DEFAULT_EXTRACTION_OPTIONS).success = true
    ∧ findAllMessageElements exDocNoMain = []
    ∧ docFirst exDocNoMain (fun n => tagName n = "main") = none
    ∧ (extractMessages exDocNoMain DEFAULT_EXTRACTION_OPTIONS).success = false := by
  refine ⟨rfl, rfl, by decide, ?_, rfl, rfl, ?_⟩
  · have h := ((c1_amended exDocFallback DEFAULT_EXTRACTION_OPTIONS rfl).1
      (DomNode.elem "main" [] [DomNode.text "hello world"]) rfl).1 (by decide)
    rw [h]
  · have h := (c1_amended exDocNoMain DEFAULT_EXTRACTION_OPTIONS rfl).2 rfl
    rw [h]

/-! ## Scanner lemmas for the C9/C10 theorems -/

theorem inlineMatchesF_nil (fuel pos : Nat) : inlineMatchesF fuel [] pos = [] := by
  cases fuel <;> rfl

theorem inlineMatchesF_sufficient :
    ∀ (fuel : Nat) (l : List Char) (pos : Nat), l.length ≤ fuel →
      inlineMatchesF fuel l pos = inlineMatchesF l.length l pos := by
  intro fuel
  induction fuel using Nat.strong_induction_on with
  | _ fuel ih =>
    intro l pos hl
    cases l with
    | nil => cases fuel <;> rfl
    | cons c rest =>
      cases fuel with
      | zero => simp at hl
      | succ f =>
        have hr : rest.length ≤ f := by simp at hl; omega
        by_cases hc : c = '$'
        · subst hc
          simp only [List.length_cons, inlineMatchesF]
          by_cases hrun : ((rest.takeWhile (fun x => x != '$')).isEmpty) = true
          · simp only [hrun, if_true]
            exact ih f (by omega) rest (pos + 1) hr
          · simp only [hrun, if_false]
            cases hdrop : rest.drop ((rest.takeWhile (fun x => x != '$')).length) with
            | nil =>
              simp only [hdrop]
              exact ih f (by omega) rest (pos + 1) hr
            | cons d r2 =>
              have hr2 : r2.length ≤ rest.length := by
                have := congrArg List.length hdrop
                simp [List.length_drop] at this
                omega
              by_cases hd : d = '$'
              · subst hd
                simp only [hdrop]
                rw [ih f (by omega) r2 (pos + (rest.takeWhile (fun x => x != '$')).length + 2)
                      (le_trans hr2 hr),
                    ih rest.length (by omega) r2
                      (pos + (rest.takeWhile (fun x => x != '$')).length + 2) hr2]
                simp
              · simp only [hdrop, if_neg hd]
                exact ih f (by omega) rest (pos + 1) hr
        · simp only [List.length_cons, inlineMatchesF, if_neg hc]
          exact ih f (by omega) rest (pos + 1) hr

theorem inlineMatches_cons_ne (c : Char) (rest : List Char) (pos : Nat) (hc : c ≠ '$') :
    inlineMatches (c :: rest) pos = inlineMatches rest (pos + 1) := by
  unfold inlineMatches
  simp only [List.length_cons, inlineMatchesF, if_neg hc]

theorem inlineMatches_skip (pre rest : List Char) (pos : Nat)
    (h : ∀ c ∈ pre, c ≠ '$') :
    inlineMatches (pre ++ rest) pos = inlineMatches rest (pos + pre.length) := by
  induction pre generalizing pos with
  | nil => simp
  | cons c ps ih =>
    rw [List.cons_append, inlineMatches_cons_ne c (ps ++ rest) pos (h c (by simp)),
      ih (pos + 1) (fun x hx => h x (by simp [hx]))]
    congr 1
    simp
    omega

theorem inlineMatches_nodollar (l : List Char) (pos : Nat) (h : ∀ c ∈ l, c ≠ '$') :
    inlineMatches l pos = [] := by
  have := inlineMatches_skip l [] pos h
  simpa [inlineMatches, inlineMatchesF_nil] using this

theorem takeWhile_nodollar_append (run tail : List Char) (h : ∀ c ∈ run, c ≠ '$') :
    (run ++ '$' :: tail).takeWhile (fun x => x != '$') = run := by
  induction run with
  | nil => simp [List.takeWhile]
  | cons c rs ih =>
    have hc : (c != '$') = true := by
      simpa using h c (by simp)
    simp only [List.cons_append, List.takeWhile, hc]
    exact congrArg (c :: ·) (ih (fun x hx => h x (by simp [hx])))

theorem inlineMatches_match (run tail : List Char) (pos : Nat)
    (hne : run ≠ []) (h : ∀ c ∈ run, c ≠ '$') :
    inlineMatches ('$' :: (run ++ '$' :: tail)) pos =
      (pos, String.mk run) :: inlineMatches tail (pos + run.length + 2) := by
  unfold inlineMatches
  simp only [List.length_cons, inlineMatchesF, if_pos rfl]
  rw [takeWhile_nodollar_append run tail h]
  have hemp : run.isEmpty = false := by
    cases run
    · exact absurd rfl hne
    · rfl
  simp only [hemp, Bool.false_eq_true, if_false, List.drop_left, if_pos rfl]
  rw [inlineMatchesF_sufficient (run ++ '$' :: tail).length tail (pos + run.length + 2)
    (by simp; omega)]
  simp



theorem blockMatchesF_nil (fuel pos : Nat) : blockMatchesF fuel [] pos = [] := by
  cases fuel <;> rfl

theorem blockMatches_step (c : Char) (rest : List Char) (pos : Nat)
    (h : c = '$' → rest.head? ≠ some '$') :
    blockMatches (c :: rest) pos = blockMatches rest (pos + 1) := by
  by_cases hc : c = '$'
  · subst hc
    cases rest with
    | nil =>
      unfold blockMatches
      simp [blockMatchesF, blockMatchesF_nil]
    | cons c2 rest2 =>
      have hc2 : c2 ≠ '$' := by
        intro hh
        exact h rfl (by simp [hh])
      unfold blockMatches
      simp only [List.length_cons, blockMatchesF, if_pos rfl, if_neg hc2]
      simp
  · unfold blockMatches
    simp only [List.length_cons, blockMatchesF, if_neg hc]

theorem blockMatches_skip (pre rest : List Char) (pos : Nat)
    (h : ∀ c ∈ pre, c ≠ '$') :
    blockMatches (pre ++ rest) pos = blockMatches rest (pos + pre.length) := by
  induction pre generalizing pos with
  | nil => simp
  | cons c ps ih =>
    rw [List.cons_append,
      blockMatches_step c (ps ++ rest) pos (fun hc => absurd hc (h c (by simp))),
      ih (pos + 1) (fun x hx => h x (by simp [hx]))]
    congr 1
    simp
    omega

theorem blockMatches_nodollar (l : List Char) (pos : Nat) (h : ∀ c ∈ l, c ≠ '$') :
    blockMatches l pos = [] := by
  have := blockMatches_skip l [] pos h
  simpa [blockMatches, blockMatchesF_nil] using this

theorem blockMatches_c10 (f : List Char) (pos : Nat)
    (hne : f ≠ []) (h : ∀ c ∈ f, c ≠ '$') :
    blockMatches ('$' :: '$' :: (f ++ ['$', '$'])) pos = [(pos, String.mk f)] := by
  unfold blockMatches
  simp only [List.length_cons, blockMatchesF, if_pos rfl]
  have htw : (f ++ ['$', '$']).takeWhile (fun x => x != '$') = f := by
    have := takeWhile_nodollar_append f ['$'] h
    simpa using this
  rw [htw]
  have hemp : f.isEmpty = false := by
    cases f
    · exact absurd rfl hne
    · rfl
  have hdrop : (f ++ ['$', '$']).drop f.length = ['$', '$'] := List.drop_left f ['$', '$']
  simp only [hemp, Bool.false_eq_true, if_false, hdrop, if_pos rfl, blockMatchesF_nil]
  simp



theorem lookInlineMatchesF_nil (fuel pos : Nat) (b : Bool) :
    lookInlineMatchesF fuel [] pos b = [] := by
  cases fuel <;> rfl

theorem lookInlineMatches_cons_ne (c : Char) (rest : List Char) (pos : Nat) (b : Bool)
    (hc : c ≠ '$') :
    lookInlineMatches (c :: rest) pos b = lookInlineMatches rest (pos + 1) false := by
  unfold lookInlineMatches
  simp only [List.length_cons, lookInlineMatchesF, if_neg hc]
  have : (c == '$') = false := by simpa using hc
  rw [this]

theorem lookInlineMatches_skip (pre rest : List Char) (pos : Nat) (b : Bool)
    (hne : pre ≠ []) (h : ∀ c ∈ pre, c ≠ '$') :
    lookInlineMatches (pre ++ rest) pos b = lookInlineMatches rest (pos + pre.length) false := by
  induction pre generalizing pos b with
  | nil => exact absurd rfl hne
  | cons c ps ih =>
    rw [List.cons_append, lookInlineMatches_cons_ne c (ps ++ rest) pos b (h c (by simp))]
    cases ps with
    | nil => simp
    | cons p ps2 =>
      rw [ih (pos + 1) false (by simp) (fun x hx => h x (by simp [hx]))]
      congr 1
      simp
      omega

theorem lookInlineMatches_dollar_prevTrue (rest : List Char) (pos : Nat) :
    lookInlineMatches ('$' :: rest) pos true = lookInlineMatches rest (pos + 1) true := by
  unfold lookInlineMatches
  simp only [List.length_cons, lookInlineMatchesF, if_pos rfl, if_true]

theorem lookInlineMatches_dollar_runEmpty (rest : List Char) (pos : Nat)
    (h : rest.head? = some '$' ∨ rest = []) :
    lookInlineMatches ('$' :: rest) pos false = lookInlineMatches rest (pos + 1) true := by
  have hemp : (rest.takeWhile (fun x => x != '$')).isEmpty = true := by
    rcases h with h | h
    · cases rest with
      | nil => rfl
      | cons c2 r2 =>
        have : c2 = '$' := by simpa using h
        subst this
        simp [List.takeWhile]
    · subst h; rfl
  unfold lookInlineMatches
  simp only [List.length_cons, lookInlineMatchesF, if_pos rfl, Bool.false_eq_true, if_false,
    hemp, if_true]

theorem inlineMatches_dollar_runEmpty (rest : List Char) (pos : Nat)
    (h : rest.head? = some '$' ∨ rest = []) :
    inlineMatches ('$' :: rest) pos = inlineMatches rest (pos + 1) := by
  have hemp : (rest.takeWhile (fun x => x != '$')).isEmpty = true := by
    rcases h with h | h
    · cases rest with
      | nil => rfl
      | cons c2 r2 =>
        have : c2 = '$' := by simpa using h
        subst this
        simp [List.takeWhile]
    · subst h; rfl
  unfold inlineMatches
  simp only [List.length_cons, inlineMatchesF, if_pos rfl, hemp, if_true]

/-- **C9.**  For a text whose only dollar-delimited span is `$x^2$` (no
other dollar sign anywhere), `createTextBlock` with math parsing enabled
sets `hasLatex = true` and records exactly one expression: the inline
(`isBlock = false`) expression with raw text `x^2` at the character
offset of the opening dollar sign. -/
theorem c9_singleInlineExpression (pre post : String) (options : ExtractionOptions)
    (hopt : options.parseLaTeX = true)
    (hpre : ∀ c ∈ pre.data, c ≠ '$') (hpost : ∀ c ∈ post.data, c ≠ '$') :
    createTextBlock (pre ++ "$x^2$" ++ post) options =
      ContentBlock.text (pre ++ "$x^2$" ++ post) true
        [{ raw := "x^2", isBlock := false, position := pre.length }] := by
  have hdata : (pre ++ "$x^2$" ++ post).data =
      pre.data ++ ('$' :: (['x', '^', '2'] ++ '$' :: post.data)) := by
    rw [strDataAppend, strDataAppend,
      show ("$x^2$" : String).data = ['$', 'x', '^', '2', '$'] from rfl,
      List.append_assoc]
    rfl
  have hhead : post.data.head? ≠ some '$' := by
    cases hp : post.data with
    | nil => simp
    | cons c r =>
      have hcp : c ≠ '$' := hpost c (by simp [hp])
      simp [hcp]
  have hinl : inlineMatches (pre ++ "$x^2$" ++ post).data 0 = [(pre.length, "x^2")] := by
    rw [hdata, inlineMatches_skip pre.data _ 0 hpre,
      inlineMatches_match ['x', '^', '2'] post.data _ (by simp) (by decide),
      inlineMatches_nodollar post.data _ hpost]
    rw [show String.mk ['x', '^', '2'] = "x^2" from rfl, strLengthData]
    simp only [Nat.zero_add]
  have hblk : blockMatches (pre ++ "$x^2$" ++ post).data 0 = [] := by
    have s1 : blockMatches ('$' :: 'x' :: '^' :: '2' :: '$' :: post.data) pre.data.length =
        blockMatches ('x' :: '^' :: '2' :: '$' :: post.data) (pre.data.length + 1) :=
      blockMatches_step _ _ _ (fun _ => by simp)
    have s2 : blockMatches ('x' :: '^' :: '2' :: '$' :: post.data) (pre.data.length + 1) =
        blockMatches ('^' :: '2' :: '$' :: post.data) (pre.data.length + 1 + 1) :=
      blockMatches_step _ _ _ (fun hx => absurd hx (by decide))
    have s3 : blockMatches ('^' :: '2' :: '$' :: post.data) (pre.data.length + 1 + 1) =
        blockMatches ('2' :: '$' :: post.data) (pre.data.length + 1 + 1 + 1) :=
      blockMatches_step _ _ _ (fun hx => absurd hx (by decide))
    have s4 : blockMatches ('2' :: '$' :: post.data) (pre.data.length + 1 + 1 + 1) =
        blockMatches ('$' :: post.data) (pre.data.length + 1 + 1 + 1 + 1) :=
      blockMatches_step _ _ _ (fun hx => absurd hx (by decide))
    have s5 : blockMatches ('$' :: post.data) (pre.data.length + 1 + 1 + 1 + 1) =
        blockMatches post.data (pre.data.length + 1 + 1 + 1 + 1 + 1) :=
      blockMatches_step _ _ _ (fun _ => hhead)
    rw [hdata, blockMatches_skip pre.data _ 0 hpre,
      show ('$' :: (['x', '^', '2'] ++ '$' :: post.data)) =
        '$' :: 'x' :: '^' :: '2' :: '$' :: post.data from rfl,
      show (0 + pre.data.length) = pre.data.length from by omega,
      s1, s2, s3, s4, s5]
    exact blockMatches_nodollar post.data _ hpost
  unfold createTextBlock
  rw [hinl, hblk]
  simp [hopt]

/-- **C10.**  For a text consisting of a single block formula `$$f$$`
(`f` non-empty and dollar-free), `createTextBlock` with math parsing
enabled records the same formula twice — once as an inline expression
(`isBlock = false`, position 1, matched by the plain inline regex inside
the double dollars) and once as a block expression (`isBlock = true`,
position 0) — whereas the standalone `extractLatexExpressions` helper
(whose inline regex carries dollar lookarounds and whose inline matches
are dropped when they start inside a block match) records it exactly
once, as a block expression. -/
theorem c10_blockRecordedTwice (f : String) (options : ExtractionOptions)
    (hopt : options.parseLaTeX = true) (hne : f ≠ "") (hf : ∀ c ∈ f.data, c ≠ '$') :
    createTextBlock ("$$" ++ f ++ "$$") options =
      ContentBlock.text ("$$" ++ f ++ "$$") true
        [{ raw := f, isBlock := false, position := 1 },
         { raw := f, isBlock := true, position := 0 }]
    ∧ extractLatexExpressions ("$$" ++ f ++ "$$") =
        [{ raw := f, isBlock := true, startIndex := 0, endIndex := f.length + 4 }] := by
  have hdne : f.data ≠ [] := by
    intro hh
    apply hne
    cases f
    simp at hh
    simp [hh]
  have hdata : ("$$" ++ f ++ "$$").data = '$' :: '$' :: (f.data ++ ['$', '$']) := by
    rw [strDataAppend, strDataAppend,
      show ("$$" : String).data = ['$', '$'] from rfl]
    rfl
  have hinl : inlineMatches ("$$" ++ f ++ "$$").data 0 = [(1, f)] := by
    rw [hdata,
      inlineMatches_dollar_runEmpty ('$' :: (f.data ++ ['$', '$'])) 0 (Or.inl rfl),
      show f.data ++ ['$', '$'] = f.data ++ '$' :: ['$'] from rfl,
      inlineMatches_match f.data ['$'] (0 + 1) hdne hf,
      inlineMatches_dollar_runEmpty [] _ (Or.inr rfl)]
    rw [show inlineMatches [] (0 + 1 + f.data.length + 2 + 1) = [] from rfl, strMkData]
  have hblk : blockMatches ("$$" ++ f ++ "$$").data 0 = [(0, f)] := by
    rw [hdata, blockMatches_c10 f.data 0 hdne hf, strMkData]
  have hlook : lookInlineMatches ("$$" ++ f ++ "$$").data 0 false = [] := by
    rw [hdata,
      lookInlineMatches_dollar_runEmpty ('$' :: (f.data ++ ['$', '$'])) 0 (Or.inl rfl),
      lookInlineMatches_dollar_prevTrue (f.data ++ ['$', '$']) (0 + 1),
      lookInlineMatches_skip f.data ['$', '$'] (0 + 1 + 1) true hdne hf,
      lookInlineMatches_dollar_runEmpty ['$'] _ (Or.inl rfl),
      lookInlineMatches_dollar_prevTrue [] _]
    rfl
  constructor
  · unfold createTextBlock
    rw [hinl, hblk]
    simp [hopt]
  · unfold extractLatexExpressions
    rw [hblk, hlook]
    simp only [List.map, List.foldl, sortByStart, List.foldr, insertByStart, Nat.zero_add]

/-- **C9, witness.**  The theorem at `pre = "he said "` and
`post = " holds"`. -/
theorem c9_singleInlineExpression_witness :
    DEFAULT_EXTRACTION_OPTIONS.parseLaTeX = true
    ∧ (∀ c ∈ ("he said " : String).data, c ≠ '$')
    ∧ (∀ c ∈ (" holds" : String).data, c ≠ '$')
    ∧ createTextBlock ("he said " ++ "$x^2$" ++ " holds") DEFAULT_EXTRACTION_OPTIONS =
        ContentBlock.text ("he said " ++ "$x^2$" ++ " holds") true
          [{ raw := "x^2", isBlock := false, position := ("he said " : String).length }] := by
  refine ⟨rfl, by decide, by decide, ?_⟩
  exact c9_singleInlineExpression "he said " " holds" DEFAULT_EXTRACTION_OPTIONS rfl
    (by decide) (by decide)

/-- **C10, witness.**  The theorem at `f = "x+y"`. -/
theorem c10_blockRecordedTwice_witness :
    ("x+y" : String) ≠ ""
    ∧ (∀ c ∈ ("x+y" : String).data, c ≠ '$')
    ∧ createTextBlock ("$$" ++ "x+y" ++ "$$") DEFAULT_EXTRACTION_OPTIONS =
        ContentBlock.text ("$$" ++ "x+y" ++ "$$") true
          [{ raw := "x+y", isBlock := false, position := 1 },
           { raw := "x+y", isBlock := true, position := 0 }]
    ∧ extractLatexExpressions ("$$" ++ "x+y" ++ "$$") =
        [{ raw := "x+y", isBlock := true, startIndex := 0,
           endIndex := ("x+y" : String).length + 4 }] := by
  refine ⟨by decide, by decide, ?_, ?_⟩
  · exact (c10_blockRecordedTwice "x+y" DEFAULT_EXTRACTION_OPTIONS rfl
      (by decide) (by decide)).1
  · exact (c10_blockRecordedTwice "x+y" DEFAULT_EXTRACTION_OPTIONS rfl
      (by decide) (by decide)).2
